import Mathlib

/-! termutils: raw terminal session and terminal-size query.

A shallow embedding of `src/termio_raw.c` (and of its caller `src/tsize.c`).

The C code talks to the operating system through `isatty`, `ioctl`, `write`,
`tcdrain`, `select` and `read`.  The embedding passes the state explicitly:

* `OS` is the state of the terminal device behind the descriptor: its
  line-discipline configuration, its window size, the bytes written to it,
  the list of system calls issued so far (oldest first), and what `select`
  will store into its timeout argument;
* the outcomes of the successive wait-then-read attempts are a list of
  `ReadEvt`; when the list is used up every further attempt times out;
* the answers of the other fallible calls are given per call (`InitEnv`,
  `QueryEnv`).

`unsigned` and `tcflag_t` are 32 bits wide; an `unsigned char` is a natural
number below 256 (no result below needs the bound).
-/

namespace Termutils

/-! ## Data model -/

/-- Values the C sources take from the platform headers `<termios.h>` and
`<sys/ioctl.h>`, which are not part of the repository: the flag masks used by
`termio_init` and the width in bits of the `unsigned short` fields of
`struct winsize`. -/
structure Platform where
  IGNBRK : Nat
  BRKINT : Nat
  PARMRK : Nat
  ISTRIP : Nat
  INLCR : Nat
  IGNCR : Nat
  ICRNL : Nat
  IXON : Nat
  OPOST : Nat
  ICANON : Nat
  ECHO : Nat
  ISIG : Nat
  IEXTEN : Nat
  CSIZE : Nat
  PARENB : Nat
  CS8 : Nat
  ushort_bits : Nat
  deriving DecidableEq

/-- The values of Linux (`asm-generic/termbits.h`, octal there) and the 16-bit
`unsigned short` of `struct winsize`. -/
def linux : Platform where
  IGNBRK := 0x001
  BRKINT := 0x002
  PARMRK := 0x008
  ISTRIP := 0x020
  INLCR := 0x040
  IGNCR := 0x080
  ICRNL := 0x100
  IXON := 0x400
  OPOST := 0x001
  ICANON := 0x002
  ECHO := 0x008
  ISIG := 0x001
  IEXTEN := 0x8000
  CSIZE := 0x030
  PARENB := 0x100
  CS8 := 0x030
  ushort_bits := 16

/-- The C type `struct timeval`. -/
structure timeval where
  tv_sec : Int
  tv_usec : Int
  deriving DecidableEq

/-- The C type `struct termios`: the line-discipline configuration. -/
structure termios where
  c_iflag : Nat
  c_oflag : Nat
  c_cflag : Nat
  c_lflag : Nat
  c_line : Nat
  c_cc : List Nat
  c_ispeed : Nat
  c_ospeed : Nat
  deriving DecidableEq

/-- The C type `struct winsize`. -/
structure winsize where
  ws_row : Nat
  ws_col : Nat
  ws_xpixel : Nat
  ws_ypixel : Nat
  deriving DecidableEq

/-- The C type `struct termio_termsize_s` of `termio_raw.h`. -/
structure termio_termsize_s where
  term_rows : Nat
  term_cols : Nat
  deriving DecidableEq

/-- The C type `struct termio_ctx_s`; `readfds` is the set of descriptors held
in the `fd_set`. -/
structure termio_ctx_s where
  fd : Int
  readfds : List Int
  tv : timeval
  saved_termios : termios
  deriving DecidableEq

/-- A system call issued on the descriptor, with its arguments. -/
inductive Sys where
  | isatty (fd : Int)
  | tcgets (fd : Int)
  | tcsets (fd : Int) (t : termios)
  | write (fd : Int) (buf : List Nat) (count : Nat)
  | tcdrain (fd : Int)
  | select (nfds : Int) (readfds : List Int) (tv : timeval)
  | read (fd : Int) (count : Nat)
  | tiocswinsz (fd : Int) (ws : winsize)
  deriving DecidableEq

/-- The terminal device as the kernel holds it, and the calls issued so far.
`select_tv` holds what the successive calls of `select` store into their
timeout argument on return (POSIX lets `select` modify the object; Linux
stores the time not slept); once the list is used up `select` leaves the
object alone. -/
structure OS where
  tios : termios
  winsz : winsize
  output : List Nat
  trace : List Sys
  select_tv : List timeval
  deriving DecidableEq

/-- What the operating system does at one wait-then-read attempt:
`select` fails; `select` returns without the descriptor being ready (the
timeout elapsed); `select` reports the descriptor ready and `read` does not
return one byte; or `read` delivers the byte `b`. -/
inductive ReadEvt where
  | select_error
  | timeout
  | read_error
  | byte (b : Nat)
  deriving DecidableEq

/-- The session handle together with the device it is attached to. -/
structure St where
  ctx : termio_ctx_s
  os : OS
  deriving DecidableEq

/-- Record a system call at the end of the trace. -/
def OS.log (os : OS) (c : Sys) : OS :=
  { os with trace := os.trace ++ [c] }

/-- The next attempt's outcome and the outcomes left after it; with nothing
pending the attempt times out. -/
def next_event : List ReadEvt → ReadEvt × List ReadEvt
  | [] => (ReadEvt.timeout, [])
  | ev :: rest => (ev, rest)

/-- The events of a terminal that delivers the bytes `bs` and then stays
silent. -/
def reply_events (bs : List Nat) : List ReadEvt :=
  bs.map ReadEvt.byte

/-! ## `termio_raw.c` -/

/-- The macro `ANSI_CSI_7BIT`, defined as the string literal ESC `[`: its two
characters (the literal is concatenated with the next one, so it brings no
NUL of its own). -/
def ANSI_CSI_7BIT : List Nat := [27, 91]

/-- The array `static const char termsize_query[] = ANSI_CSI_7BIT "18t";`: it
holds the characters of the literal and its terminating NUL. -/
def termsize_query : List Nat := ANSI_CSI_7BIT ++ [49, 56, 116] ++ [0]

/-- The variable `static size_t termsize_query_len = sizeof(termsize_query);`:
the size of the array. -/
def termsize_query_len : Nat := termsize_query.length

/-- The array `static unsigned char response[]` holding `8` and `;`. -/
def response : List Nat := [56, 59]

/-- The statements `FD_ZERO`, `FD_SET` and the call
`select(ctx->fd + 1, &ctx->readfds, NULL, NULL, &ctx->tv)` of `timed_readchar`:
the call is recorded with the timeout it is given, and on return the timeout
object holds what `select` stored into it. -/
def sys_select (s : St) : St :=
  ⟨{ s.ctx with readfds := [s.ctx.fd], tv := (s.os.select_tv.head?).getD s.ctx.tv },
    { s.os.log (Sys.select (s.ctx.fd + 1) [s.ctx.fd] s.ctx.tv) with
      select_tv := s.os.select_tv.tail }⟩

/-- The function `timed_readchar`: `some ch` stands for return value 0 with `ch` stored
through `cp`, `none` for return value -1 (nothing stored).  `ev` is what the
operating system does at this attempt. -/
def timed_readchar (ev : ReadEvt) (s : St) : Option Nat × St :=
  let s1 := sys_select s
  match ev with
  | ReadEvt.select_error => (none, s1)
  | ReadEvt.timeout => (none, ⟨{ s1.ctx with readfds := [] }, s1.os⟩)
  | ReadEvt.read_error => (none, ⟨s1.ctx, s1.os.log (Sys.read s1.ctx.fd 1)⟩)
  | ReadEvt.byte b => (some b, ⟨s1.ctx, s1.os.log (Sys.read s1.ctx.fd 1)⟩)

/-- The function `expect_csi`: reads a CSI, either the 8-bit byte 0x9B or ESC `[`.
Returns whether it matched, the events left and the new state. -/
def expect_csi (inp : List ReadEvt) (s : St) : Bool × List ReadEvt × St :=
  match timed_readchar (next_event inp).1 s with
  | (none, s1) => (false, (next_event inp).2, s1)
  | (some ch, s1) =>
    if ch = 0x9B then (true, (next_event inp).2, s1)
    else if ch ≠ 27 then (false, (next_event inp).2, s1)
    else
      let inp1 := (next_event inp).2
      match timed_readchar (next_event inp1).1 s1 with
      | (none, s2) => (false, (next_event inp1).2, s2)
      | (some ch2, s2) => (decide (ch2 = 91), (next_event inp1).2, s2)

/-- The function `expect`: reads and matches the characters of its first
argument in order.  Returns whether they matched, the events left and the new
state. -/
def expect : List Nat → List ReadEvt → St → Bool × List ReadEvt × St
  | [], inp, s => (true, inp, s)
  | c :: cs, inp, s =>
    match timed_readchar (next_event inp).1 s with
    | (none, s1) => (false, (next_event inp).2, s1)
    | (some ch, s1) =>
      if ch ≠ c then (false, (next_event inp).2, s1)
      else expect cs (next_event inp).2 s1

/-- The `enum` local to `termio_termsize_setup`. -/
inductive ParseState where
  | STATE_ROWS
  | STATE_COLS
  | STATE_DONE
  deriving DecidableEq

/-- How one pass through the body of the `while` loop ends: it reaches the
loop condition again (`continue` or the end of the body), it leaves the loop
(`break`), or it returns from the function. -/
inductive Flow where
  | again (curstate : ParseState) (tsize : termio_termsize_s)
  | brk (curstate : ParseState) (tsize : termio_termsize_s)
  | ret (code : Int)
  deriving DecidableEq

/-- The body of the `while` loop of `termio_termsize_setup` for the character
`ch` just read.  The accumulators are `unsigned`: arithmetic modulo 2^32. -/
def loop_body (curstate : ParseState) (tsize : termio_termsize_s) (ch : Nat) : Flow :=
  if curstate = ParseState.STATE_ROWS then
    if ch = 59 then Flow.again ParseState.STATE_COLS tsize
    else if ch < 48 ∨ ch > 57 then Flow.brk curstate tsize
    else Flow.again curstate
      { tsize with term_rows := (tsize.term_rows * 10 + (ch - 48)) % 2 ^ 32 }
  else if curstate = ParseState.STATE_COLS then
    if ch = 116 then Flow.brk ParseState.STATE_DONE tsize
    else if ch < 48 ∨ ch > 57 then Flow.ret (-1)
    else Flow.again curstate
      { tsize with term_cols := (tsize.term_cols * 10 + (ch - 48)) % 2 ^ 32 }
  else Flow.again curstate tsize

/-- State of `termio_termsize_setup` when its `while` loop is left: `ret` is
the return code when the body returned from the function. -/
structure LoopOut where
  ret : Option Int
  curstate : ParseState
  tsize : termio_termsize_s
  inp : List ReadEvt
  s : St
  deriving DecidableEq

/-- The `while (timed_readchar(ctx, &ch) >= 0) { ... }` loop of
`termio_termsize_setup`.  With no event pending the read times out and the
loop condition fails. -/
def size_loop : List ReadEvt → St → ParseState → termio_termsize_s → LoopOut
  | [], s, curstate, tsize =>
    ⟨none, curstate, tsize, [], (timed_readchar ReadEvt.timeout s).2⟩
  | ev :: rest, s, curstate, tsize =>
    match timed_readchar ev s with
    | (none, s1) => ⟨none, curstate, tsize, rest, s1⟩
    | (some ch, s1) =>
      match loop_body curstate tsize ch with
      | Flow.again curstate1 tsize1 => size_loop rest s1 curstate1 tsize1
      | Flow.brk curstate1 tsize1 => ⟨none, curstate1, tsize1, rest, s1⟩
      | Flow.ret code => ⟨some code, curstate, tsize, rest, s1⟩

/-- The answers of the operating system to the calls of one
`termio_termsize_setup` other than the reads: the return value of `write` and
whether `ioctl(TIOCSWINSZ)` succeeds. -/
structure QueryEnv where
  write_ret : Int
  winsz_ok : Bool
  deriving DecidableEq

/-- The call `write(fd, buf, count)` returning `n`: the first `n` bytes of the
buffer reach the device. -/
def sys_write (fd : Int) (buf : List Nat) (count : Nat) (n : Int) (os : OS) : OS :=
  { os.log (Sys.write fd buf count) with
    output := os.output ++ (buf.take count).take n.toNat }

/-- The call `ioctl(fd, TIOCSWINSZ, &ws)`: when it succeeds the device takes
the window size. -/
def sys_tiocswinsz (ok : Bool) (fd : Int) (ws : winsize) (os : OS) : OS :=
  if ok then { os.log (Sys.tiocswinsz fd ws) with winsz := ws }
  else os.log (Sys.tiocswinsz fd ws)

/-- The call `ioctl(fd, TCSETS, &t)`: when it succeeds the device takes the
configuration. -/
def sys_tcsets (ok : Bool) (fd : Int) (t : termios) (os : OS) : OS :=
  if ok then { os.log (Sys.tcsets fd t) with tios := t }
  else os.log (Sys.tcsets fd t)

/-- What a call of `termio_termsize_setup` leaves: the return code, the object
`sz` points to (`none` for a null pointer), the events not consumed, and the
session and device. -/
structure SetupOut where
  ret : Int
  sz : Option termio_termsize_s
  inp : List ReadEvt
  s : St
  deriving DecidableEq

/-- The function `termio_termsize_setup`.  `sz` is the object the second argument points to
before the call, `none` for a null pointer. -/
def termio_termsize_setup (P : Platform) (env : QueryEnv)
    (sz : Option termio_termsize_s) (inp : List ReadEvt) (s : St) : SetupOut :=
  let s0 : St :=
    ⟨s.ctx, sys_write s.ctx.fd termsize_query termsize_query_len env.write_ret s.os⟩
  if env.write_ret ≠ (termsize_query_len : Int) then ⟨-1, sz, inp, s0⟩
  else
    let s1 : St := ⟨s0.ctx, s0.os.log (Sys.tcdrain s0.ctx.fd)⟩
    match expect_csi inp s1 with
    | (false, inp2, s2) => ⟨-1, sz, inp2, s2⟩
    | (true, inp2, s2) =>
      match expect response inp2 s2 with
      | (false, inp3, s3) => ⟨-1, sz, inp3, s3⟩
      | (true, inp3, s3) =>
        let r := size_loop inp3 s3 ParseState.STATE_ROWS ⟨0, 0⟩
        match r.ret with
        | some code => ⟨code, sz, r.inp, r.s⟩
        | none =>
          if r.curstate ≠ ParseState.STATE_DONE then ⟨-1, sz, r.inp, r.s⟩
          else
            let winsz : winsize :=
              { ws_row := r.tsize.term_rows % 2 ^ P.ushort_bits
                ws_col := r.tsize.term_cols % 2 ^ P.ushort_bits
                ws_xpixel := 0
                ws_ypixel := 0 }
            let s4 : St := ⟨r.s.ctx, sys_tiocswinsz env.winsz_ok r.s.ctx.fd winsz r.s.os⟩
            ⟨0, sz.map (fun _ => r.tsize), r.inp, s4⟩

/-- The answers of the operating system to the calls of `termio_init`: what
`isatty` returns, whether `ioctl(TCGETS)`, `malloc` and `ioctl(TCSETS)`
succeed. -/
structure InitEnv where
  isatty : Bool
  tcgets_ok : Bool
  malloc_ok : Bool
  tcsets_ok : Bool
  deriving DecidableEq

/-- The C expression `~m` for an `int` mask `m`, as the `tcflag_t` it is
converted to: the complement within 32 bits. -/
def bnot32 (m : Nat) : Nat := (2 ^ 32 - 1) ^^^ (m % 2 ^ 32)

/-- The configuration `termio_init` builds in `tios` from the one it read. -/
def raw_termios (P : Platform) (tios : termios) : termios :=
  let t1 := { tios with
    c_iflag := tios.c_iflag &&&
      bnot32 (P.IGNBRK ||| P.BRKINT ||| P.PARMRK ||| P.ISTRIP ||| P.INLCR ||| P.IGNCR
        ||| P.ICRNL ||| P.IXON) }
  let t2 := { t1 with c_oflag := t1.c_oflag &&& bnot32 P.OPOST }
  let t3 := { t2 with
    c_lflag := t2.c_lflag &&& bnot32 (P.ICANON ||| P.ECHO ||| P.ISIG ||| P.IEXTEN) }
  let t4 := { t3 with c_cflag := t3.c_cflag &&& bnot32 (P.CSIZE ||| P.PARENB) }
  { t4 with c_cflag := (t4.c_cflag ||| P.CS8) % 2 ^ 32 }

/-- The function `termio_init`: `none` stands for the NULL return.  `os.tios` is the
configuration `ioctl(TCGETS)` reads. -/
def termio_init (P : Platform) (env : InitEnv) (ttyfd : Int) (os : OS) :
    Option termio_ctx_s × OS :=
  let os1 := os.log (Sys.isatty ttyfd)
  if env.isatty = false then (none, os1)
  else
    let os2 := os1.log (Sys.tcgets ttyfd)
    if env.tcgets_ok = false then (none, os2)
    else
      let tios := os2.tios
      if env.malloc_ok = false then (none, os2)
      else
        let ctx : termio_ctx_s :=
          { fd := 0, readfds := [], tv := ⟨0, 0⟩, saved_termios := tios }
        let os3 := sys_tcsets env.tcsets_ok ttyfd (raw_termios P tios) os2
        if env.tcsets_ok = false then (none, os3)
        else (some { ctx with fd := ttyfd, tv := { ctx.tv with tv_sec := 1 } }, os3)

/-- The function `termio_finish`; `tcsets_ok` tells whether its `ioctl(TCSETS)` succeeds. -/
def termio_finish (tcsets_ok : Bool) (ctx : termio_ctx_s) (os : OS) : OS :=
  sys_tcsets tcsets_ok ctx.fd ctx.saved_termios os

/-! ## Callers -/

/-- The function `main` of `tsize.c` on descriptor `stdin_fd`: the device it
leaves (its return value is always 0). -/
def tsize_main (P : Platform) (ienv : InitEnv) (qenv : QueryEnv) (finish_ok : Bool)
    (stdin_fd : Int) (inp : List ReadEvt) (os : OS) : OS :=
  match termio_init P ienv stdin_fd os with
  | (none, os1) => os1
  | (some tc, os1) =>
    termio_finish finish_ok tc (termio_termsize_setup P qenv none inp ⟨tc, os1⟩).s.os

/-! ## Vocabulary of the specification -/

/-- An ASCII decimal digit. -/
def is_digit (ch : Nat) : Prop := 48 ≤ ch ∧ ch ≤ 57

instance (ch : Nat) : Decidable (is_digit ch) := by
  unfold is_digit; infer_instance

/-- A Control Sequence Introducer: the byte 0x9B, or ESC followed by `[`. -/
def is_csi (l : List Nat) : Prop := l = [0x9B] ∨ l = [0x1B, 0x5B]

/-- The reply format of the specification: CSI, `8;`, decimal rows, `;`,
decimal columns, `t` (either run of digits may be empty). -/
def size_reply (csi ds_r ds_c : List Nat) : List Nat :=
  csi ++ [56, 59] ++ ds_r ++ [59] ++ ds_c ++ [116]

/-- The value `v := v * 10 + digit` accumulates over the digit characters
`ds`, in 32-bit unsigned arithmetic. -/
def accumulate (v : Nat) (ds : List Nat) : Nat :=
  ds.foldl (fun v ch => (v * 10 + (ch - 48)) % 2 ^ 32) v

/-- The canonical decimal rendering of `n` as ASCII characters, most
significant digit first, no leading zero (`0` is rendered `0`). -/
def decimal (n : Nat) : List Nat :=
  if n = 0 then [48] else ((Nat.digits 10 n).reverse).map (fun d => d + 48)

/-- The window sizes pushed with `ioctl(TIOCSWINSZ)` in a trace, in order. -/
def pushes (t : List Sys) : List winsize :=
  t.filterMap (fun c => match c with
    | Sys.tiocswinsz _ ws => some ws
    | _ => none)

/-- The configurations written with `ioctl(TCSETS)` in a trace, in order. -/
def tcsets_calls (t : List Sys) : List termios :=
  t.filterMap (fun c => match c with
    | Sys.tcsets _ tc => some tc
    | _ => none)

/-- Whether a call is one of the two `timed_readchar` issues. -/
def Sys.is_read : Sys → Bool
  | Sys.select _ _ _ => true
  | Sys.read _ _ => true
  | _ => false

/-- The state after a `timed_readchar` that delivered a byte. -/
def St.read_ok (s : St) : St :=
  ⟨(sys_select s).ctx, (sys_select s).os.log (Sys.read (sys_select s).ctx.fd 1)⟩

/-- The state after `n` reads that each delivered a byte. -/
def St.reads : Nat → St → St
  | 0, s => s
  | n + 1, s => St.reads n s.read_ok

/-- The session and device differ only by what reads do: the descriptor set
and the timeout of the handle, and `select`/`read` entries added to the
trace. -/
def ReadsOnly (s s1 : St) : Prop :=
  s1.ctx.fd = s.ctx.fd ∧
  s1.ctx.saved_termios = s.ctx.saved_termios ∧
  s1.os.tios = s.os.tios ∧ s1.os.winsz = s.os.winsz ∧ s1.os.output = s.os.output ∧
  ∃ t, s1.os.trace = s.os.trace ++ t ∧ ∀ c ∈ t, c.is_read = true

/-- The state once the query is written and drained. -/
def St.after_query (env : QueryEnv) (s : St) : St :=
  ⟨s.ctx, (sys_write s.ctx.fd termsize_query termsize_query_len env.write_ret s.os).log
    (Sys.tcdrain s.ctx.fd)⟩

/-- The state once a reply of the expected format is read to its end. -/
def St.after_reply (env : QueryEnv) (csi ds_r ds_c : List Nat) (s : St) : St :=
  (St.reads ds_c.length
    (St.reads ds_r.length
      (St.reads 2 (St.reads csi.length (s.after_query env)))).read_ok).read_ok

/-- The state once the query is handed to `write`, before anything else. -/
def St.after_write (env : QueryEnv) (s : St) : St :=
  ⟨s.ctx, sys_write s.ctx.fd termsize_query termsize_query_len env.write_ret s.os⟩

/-! ## Sample values -/

/-- A sample device: a cooked-mode configuration (the Linux defaults), a
0 x 0 window, nothing written, no call issued yet, and a `select` that leaves
its timeout argument alone. -/
def sample_os : OS :=
  ⟨⟨0x0500, 0x0005, 0x00bf, 0x8a3b, 0, [3, 28, 127, 21, 4], 15, 15⟩, ⟨0, 0, 0, 0⟩, [], [],
    []⟩

/-- A sample session on descriptor 0 of `sample_os`, with the 1 second
timeout `termio_init` sets. -/
def sample_st : St :=
  ⟨⟨0, [], ⟨1, 0⟩, sample_os.tios⟩, sample_os⟩

/-- Sample answers of the operating system to a query: the write is complete
and the window-size `ioctl` succeeds. -/
def sample_env : QueryEnv := ⟨6, true⟩

/-- A sample Linux device: as `sample_os`, but the first `select` returns
after 0.4 second and stores the 0.6 second not slept into its timeout
argument; the bytes that follow are ready at once, so the later calls leave
the object as they find it. -/
def sample_linux_os : OS :=
  { sample_os with select_tv := [⟨0, 600000⟩] }

/-- The timeouts given to `select` in a trace, in order. -/
def select_timeouts (t : List Sys) : List timeval :=
  t.filterMap (fun c => match c with
    | Sys.select _ _ tv => some tv
    | _ => none)

/-- A sequence of bytes that a reply of the expected format begins with. -/
def viable (pre : List Nat) : Prop :=
  ∃ csi ds_r ds_c suf, is_csi csi ∧ (∀ d ∈ ds_r, is_digit d) ∧ (∀ d ∈ ds_c, is_digit d) ∧
    pre ++ suf = size_reply csi ds_r ds_c

/-! ## Lemmas on the reads -/

theorem timed_readchar_byte (b : Nat) (s : St) :
    timed_readchar (ReadEvt.byte b) s = (some b, s.read_ok) := rfl

theorem is_digit_iff (ch : Nat) : is_digit ch ↔ ¬ (ch < 48 ∨ ch > 57) := by
  unfold is_digit; omega

theorem ReadsOnly.refl (s : St) : ReadsOnly s s :=
  ⟨rfl, rfl, rfl, rfl, rfl, [], by simp, by simp⟩

theorem ReadsOnly.trans {a b c : St} (h1 : ReadsOnly a b) (h2 : ReadsOnly b c) :
    ReadsOnly a c := by
  obtain ⟨f1, t1, i1, w1, o1, l1, e1, r1⟩ := h1
  obtain ⟨f2, t2, i2, w2, o2, l2, e2, r2⟩ := h2
  refine ⟨f2.trans f1, t2.trans t1, i2.trans i1, w2.trans w1, o2.trans o1,
    l1 ++ l2, ?_, ?_⟩
  · rw [e2, e1, List.append_assoc]
  · intro c hc
    rcases List.mem_append.mp hc with h | h
    · exact r1 c h
    · exact r2 c h

theorem timed_readchar_readsOnly (ev : ReadEvt) (s : St) :
    ReadsOnly s (timed_readchar ev s).2 := by
  cases ev <;>
    simp [timed_readchar, sys_select, ReadsOnly, OS.log, Sys.is_read]

theorem expect_csi_readsOnly (inp : List ReadEvt) (s : St) :
    ReadsOnly s (expect_csi inp s).2.2 := by
  unfold expect_csi
  have h1 := timed_readchar_readsOnly (next_event inp).1 s
  rcases hr : timed_readchar (next_event inp).1 s with ⟨o, s1⟩
  rw [hr] at h1
  cases o with
  | none => exact h1
  | some ch =>
    simp only
    split_ifs
    · exact h1
    · exact h1
    · have h2 := timed_readchar_readsOnly (next_event (next_event inp).2).1 s1
      rcases hr2 : timed_readchar (next_event (next_event inp).2).1 s1 with ⟨o2, s2⟩
      rw [hr2] at h2
      cases o2 <;> exact h1.trans h2

theorem expect_readsOnly (m : List Nat) (inp : List ReadEvt) (s : St) :
    ReadsOnly s (expect m inp s).2.2 := by
  induction m generalizing inp s with
  | nil => exact ReadsOnly.refl s
  | cons c cs ih =>
    unfold expect
    have h1 := timed_readchar_readsOnly (next_event inp).1 s
    rcases hr : timed_readchar (next_event inp).1 s with ⟨o, s1⟩
    rw [hr] at h1
    cases o with
    | none => exact h1
    | some ch =>
      simp only
      split_ifs
      · exact h1
      · exact h1.trans (ih _ _)

theorem size_loop_readsOnly (inp : List ReadEvt) (s : St) (cs : ParseState)
    (ts : termio_termsize_s) : ReadsOnly s (size_loop inp s cs ts).s := by
  induction inp generalizing s cs ts with
  | nil => exact timed_readchar_readsOnly _ s
  | cons ev rest ih =>
    unfold size_loop
    have h1 := timed_readchar_readsOnly ev s
    rcases hr : timed_readchar ev s with ⟨o, s1⟩
    rw [hr] at h1
    cases o with
    | none => exact h1
    | some ch =>
      simp only
      cases hb : loop_body cs ts ch with
      | again c1 t1 => exact h1.trans (ih _ _ _)
      | brk c1 t1 => exact h1
      | ret code => exact h1


theorem reads_add (a b : Nat) (s : St) : St.reads (a + b) s = St.reads b (St.reads a s) := by
  induction a generalizing s with
  | zero => simp [St.reads]
  | succ n ih =>
    rw [Nat.add_right_comm]
    simp only [St.reads]
    exact ih _

theorem reads_succ (n : Nat) (s : St) : St.reads (n + 1) s = (St.reads n s).read_ok := by
  rw [reads_add]; rfl

theorem size_loop_rows_digits (ds : List Nat) (hds : ∀ d ∈ ds, is_digit d)
    (rest : List ReadEvt) (s : St) (ts : termio_termsize_s) :
    size_loop (reply_events ds ++ rest) s ParseState.STATE_ROWS ts =
      size_loop rest (St.reads ds.length s) ParseState.STATE_ROWS
        ⟨accumulate ts.term_rows ds, ts.term_cols⟩ := by
  induction ds generalizing s ts with
  | nil => rfl
  | cons d ds ih =>
    have hd : is_digit d := hds d (List.mem_cons_self _ _)
    have hd1 : d ≠ 59 := by unfold is_digit at hd; omega
    have hd2 : ¬ (d < 48 ∨ d > 57) := (is_digit_iff d).mp hd
    have ih1 := ih (fun x hx => hds x (List.mem_cons_of_mem _ hx)) s.read_ok
      ⟨(ts.term_rows * 10 + (d - 48)) % 2 ^ 32, ts.term_cols⟩
    simp only [reply_events, List.map_cons, List.cons_append, size_loop,
      timed_readchar_byte, loop_body, hd1, hd2, if_true, if_false, List.length_cons,
      St.reads, accumulate, List.foldl_cons] at ih1 ⊢
    exact ih1

theorem size_loop_cols_digits (ds : List Nat) (hds : ∀ d ∈ ds, is_digit d)
    (rest : List ReadEvt) (s : St) (ts : termio_termsize_s) :
    size_loop (reply_events ds ++ rest) s ParseState.STATE_COLS ts =
      size_loop rest (St.reads ds.length s) ParseState.STATE_COLS
        ⟨ts.term_rows, accumulate ts.term_cols ds⟩ := by
  induction ds generalizing s ts with
  | nil => rfl
  | cons d ds ih =>
    have hd : is_digit d := hds d (List.mem_cons_self _ _)
    have hd1 : d ≠ 116 := by unfold is_digit at hd; omega
    have hd2 : ¬ (d < 48 ∨ d > 57) := (is_digit_iff d).mp hd
    have ih1 := ih (fun x hx => hds x (List.mem_cons_of_mem _ hx)) s.read_ok
      ⟨ts.term_rows, (ts.term_cols * 10 + (d - 48)) % 2 ^ 32⟩
    simp only [reply_events, List.map_cons, List.cons_append, size_loop,
      timed_readchar_byte, loop_body, hd1, hd2, if_true, if_false, List.length_cons,
      St.reads, accumulate, List.foldl_cons] at ih1 ⊢
    simpa using ih1

theorem size_loop_rows_sep (rest : List ReadEvt) (s : St) (ts : termio_termsize_s) :
    size_loop (ReadEvt.byte 59 :: rest) s ParseState.STATE_ROWS ts =
      size_loop rest s.read_ok ParseState.STATE_COLS ts := by
  simp [size_loop, timed_readchar_byte, loop_body]

theorem size_loop_cols_end (rest : List ReadEvt) (s : St) (ts : termio_termsize_s) :
    size_loop (ReadEvt.byte 116 :: rest) s ParseState.STATE_COLS ts =
      ⟨none, ParseState.STATE_DONE, ts, rest, s.read_ok⟩ := by
  simp [size_loop, timed_readchar_byte, loop_body]

theorem expect_csi_match (csi : List Nat) (h : is_csi csi) (rest : List ReadEvt) (s : St) :
    expect_csi (reply_events csi ++ rest) s = (true, rest, St.reads csi.length s) := by
  rcases h with rfl | rfl <;>
    simp [expect_csi, reply_events, next_event, timed_readchar_byte, St.reads]

theorem expect_response_match (rest : List ReadEvt) (s : St) :
    expect response (reply_events [56, 59] ++ rest) s = (true, rest, St.reads 2 s) := by
  simp [expect, response, reply_events, next_event, timed_readchar_byte, St.reads]


theorem size_reply_events (csi ds_r ds_c : List Nat) (rest : List ReadEvt) :
    reply_events (size_reply csi ds_r ds_c) ++ rest =
      reply_events csi ++ (reply_events [56, 59] ++ (reply_events ds_r ++
        (ReadEvt.byte 59 :: (reply_events ds_c ++ (ReadEvt.byte 116 :: rest))))) := by
  simp [size_reply, reply_events]

theorem setup_size_reply (P : Platform) (env : QueryEnv) (sz : Option termio_termsize_s)
    (csi ds_r ds_c : List Nat) (rest : List ReadEvt) (s : St)
    (hw : env.write_ret = 6) (hcsi : is_csi csi)
    (hr : ∀ d ∈ ds_r, is_digit d) (hc : ∀ d ∈ ds_c, is_digit d) :
    termio_termsize_setup P env sz (reply_events (size_reply csi ds_r ds_c) ++ rest) s =
      ⟨0, sz.map (fun _ => ⟨accumulate 0 ds_r, accumulate 0 ds_c⟩), rest,
        ⟨(s.after_reply env csi ds_r ds_c).ctx,
          sys_tiocswinsz env.winsz_ok (s.after_reply env csi ds_r ds_c).ctx.fd
            ⟨accumulate 0 ds_r % 2 ^ P.ushort_bits, accumulate 0 ds_c % 2 ^ P.ushort_bits,
              0, 0⟩
            (s.after_reply env csi ds_r ds_c).os⟩⟩ := by
  have hlen : (termsize_query_len : Int) = 6 := by decide
  unfold termio_termsize_setup
  rw [size_reply_events]
  simp only [hw, hlen, ne_eq, not_true_eq_false, if_false]
  have e1 := expect_csi_match csi hcsi (reply_events [56, 59] ++ (reply_events ds_r ++
        (ReadEvt.byte 59 :: (reply_events ds_c ++ (ReadEvt.byte 116 :: rest)))))
        (s.after_query env)
  simp only [St.after_query, hw] at e1
  rw [e1]
  simp only [expect_response_match, size_loop_rows_digits ds_r hr, size_loop_rows_sep,
    size_loop_cols_digits ds_c hc, size_loop_cols_end]
  simp [St.after_reply, St.after_query, hw]


theorem expect_csi_true (inp : List ReadEvt) (s : St) (h : (expect_csi inp s).1 = true) :
    ∃ csi, is_csi csi ∧ inp = reply_events csi ++ (expect_csi inp s).2.1 := by
  cases inp with
  | nil => simp [expect_csi, next_event, timed_readchar] at h
  | cons ev rest =>
    cases ev with
    | select_error => simp [expect_csi, next_event, timed_readchar] at h
    | timeout => simp [expect_csi, next_event, timed_readchar] at h
    | read_error => simp [expect_csi, next_event, timed_readchar] at h
    | byte b =>
      by_cases hb : b = 0x9B
      · subst hb
        exact ⟨[0x9B], Or.inl rfl, by simp [expect_csi, next_event, timed_readchar_byte, reply_events]⟩
      · by_cases hb2 : b = 27
        · subst hb2
          cases rest with
          | nil => simp [expect_csi, next_event, timed_readchar_byte, timed_readchar] at h
          | cons ev2 rest2 =>
            cases ev2 with
            | select_error => simp [expect_csi, next_event, timed_readchar_byte, timed_readchar] at h
            | timeout => simp [expect_csi, next_event, timed_readchar_byte, timed_readchar] at h
            | read_error => simp [expect_csi, next_event, timed_readchar_byte, timed_readchar] at h
            | byte c =>
              simp [expect_csi, next_event, timed_readchar_byte] at h
              subst h
              exact ⟨[0x1B, 0x5B], Or.inr rfl,
                by simp [expect_csi, next_event, timed_readchar_byte, reply_events]⟩
        · simp [expect_csi, next_event, timed_readchar_byte, hb, hb2] at h

theorem expect_true (m : List Nat) (inp : List ReadEvt) (s : St)
    (h : (expect m inp s).1 = true) :
    inp = reply_events m ++ (expect m inp s).2.1 := by
  induction m generalizing inp s with
  | nil => simp [expect, reply_events]
  | cons c cs ih =>
    cases inp with
    | nil => simp [expect, next_event, timed_readchar] at h
    | cons ev rest =>
      cases ev with
      | select_error => simp [expect, next_event, timed_readchar] at h
      | timeout => simp [expect, next_event, timed_readchar] at h
      | read_error => simp [expect, next_event, timed_readchar] at h
      | byte b =>
        by_cases hb : b = c
        · subst hb
          simp only [expect, next_event, timed_readchar_byte, ne_eq, not_true_eq_false,
            if_false] at h ⊢
          have := ih rest s.read_ok h
          simp only [reply_events, List.map_cons, List.cons_append, List.cons.injEq,
            true_and] at this ⊢
          exact this
        · simp [expect, next_event, timed_readchar_byte, hb] at h

theorem size_loop_ret (inp : List ReadEvt) (s : St) (cs : ParseState)
    (ts : termio_termsize_s) (code : Int) (h : (size_loop inp s cs ts).ret = some code) :
    code = -1 := by
  induction inp generalizing s cs ts with
  | nil => simp [size_loop] at h
  | cons ev rest ih =>
    cases ev with
    | select_error => simp [size_loop, timed_readchar] at h
    | timeout => simp [size_loop, timed_readchar] at h
    | read_error => simp [size_loop, timed_readchar] at h
    | byte b =>
      simp only [size_loop, timed_readchar_byte] at h
      cases hb : loop_body cs ts b with
      | again c1 t1 => rw [hb] at h; exact ih _ _ _ h
      | brk c1 t1 => rw [hb] at h; simp at h
      | ret c =>
        rw [hb] at h
        simp only [Option.some.injEq] at h
        subst h
        unfold loop_body at hb
        split_ifs at hb
        simp_all

theorem size_loop_cols_done (inp : List ReadEvt) (s : St) (ts : termio_termsize_s)
    (h1 : (size_loop inp s ParseState.STATE_COLS ts).ret = none)
    (h2 : (size_loop inp s ParseState.STATE_COLS ts).curstate = ParseState.STATE_DONE) :
    ∃ ds, (∀ d ∈ ds, is_digit d) ∧
      inp = reply_events ds ++
        ReadEvt.byte 116 :: (size_loop inp s ParseState.STATE_COLS ts).inp := by
  induction inp generalizing s ts with
  | nil => simp [size_loop] at h2
  | cons ev rest ih =>
    cases ev with
    | select_error => simp [size_loop, timed_readchar] at h2
    | timeout => simp [size_loop, timed_readchar] at h2
    | read_error => simp [size_loop, timed_readchar] at h2
    | byte b =>
      by_cases hb : b = 116
      · subst hb
        exact ⟨[], by simp, by simp [size_loop_cols_end, reply_events]⟩
      · by_cases hd : b < 48 ∨ b > 57
        · simp [size_loop, timed_readchar_byte, loop_body, hb, hd] at h1
        · simp only [size_loop, timed_readchar_byte, loop_body, hb, hd, if_false,
            reduceCtorEq, if_true] at h1 h2 ⊢
          obtain ⟨ds, hds, e⟩ := ih _ _ h1 h2
          refine ⟨b :: ds, ?_, ?_⟩
          · intro d hdm
            rcases List.mem_cons.mp hdm with rfl | hdm
            · exact (is_digit_iff _).mpr hd
            · exact hds d hdm
          · simp only [reply_events, List.map_cons, List.cons_append, List.cons.injEq,
              true_and] at e ⊢
            exact e

theorem size_loop_rows_done (inp : List ReadEvt) (s : St) (ts : termio_termsize_s)
    (h1 : (size_loop inp s ParseState.STATE_ROWS ts).ret = none)
    (h2 : (size_loop inp s ParseState.STATE_ROWS ts).curstate = ParseState.STATE_DONE) :
    ∃ ds_r ds_c, (∀ d ∈ ds_r, is_digit d) ∧ (∀ d ∈ ds_c, is_digit d) ∧
      inp = reply_events ds_r ++ ReadEvt.byte 59 :: (reply_events ds_c ++
        ReadEvt.byte 116 :: (size_loop inp s ParseState.STATE_ROWS ts).inp) := by
  induction inp generalizing s ts with
  | nil => simp [size_loop] at h2
  | cons ev rest ih =>
    cases ev with
    | select_error => simp [size_loop, timed_readchar] at h2
    | timeout => simp [size_loop, timed_readchar] at h2
    | read_error => simp [size_loop, timed_readchar] at h2
    | byte b =>
      by_cases hb : b = 59
      · subst hb
        rw [size_loop_rows_sep] at h1 h2 ⊢
        obtain ⟨ds, hds, e⟩ := size_loop_cols_done rest _ _ h1 h2
        exact ⟨[], ds, by simp, hds, by simpa [reply_events] using e⟩
      · by_cases hd : b < 48 ∨ b > 57
        · simp [size_loop, timed_readchar_byte, loop_body, hb, hd] at h2
        · simp only [size_loop, timed_readchar_byte, loop_body, hb, hd, if_false,
            if_true] at h1 h2 ⊢
          obtain ⟨ds_r, ds_c, hr, hc, e⟩ := ih _ _ h1 h2
          refine ⟨b :: ds_r, ds_c, ?_, hc, ?_⟩
          · intro d hdm
            rcases List.mem_cons.mp hdm with rfl | hdm
            · exact (is_digit_iff _).mpr hd
            · exact hr d hdm
          · simp only [reply_events, List.map_cons, List.cons_append, List.cons.injEq,
              true_and] at e ⊢
            exact e


theorem pushes_reads (t : List Sys) (h : ∀ c ∈ t, c.is_read = true) : pushes t = [] := by
  induction t with
  | nil => rfl
  | cons c t ih =>
    have hc := h c (List.mem_cons_self _ _)
    have ht := ih (fun x hx => h x (List.mem_cons_of_mem _ hx))
    cases c <;> simp_all [pushes, Sys.is_read]

theorem pushes_append (a b : List Sys) : pushes (a ++ b) = pushes a ++ pushes b := by
  simp [pushes, List.filterMap_append]

theorem ReadsOnly.pushes_eq {s s1 : St} (h : ReadsOnly s s1) :
    pushes s1.os.trace = pushes s.os.trace := by
  obtain ⟨_, _, _, _, _, t, e, r⟩ := h
  rw [e, pushes_append, pushes_reads t r, List.append_nil]

/-- The two ways a call of `termio_termsize_setup` ends.  Failure: code -1, the
caller's object untouched, and after the `write` (and, when it was complete,
the drain) only reads.  Success: code 0 after a complete write and a reply of
the expected format, of which `inp` holds the events that follow it. -/
theorem setup_cases (P : Platform) (env : QueryEnv) (sz : Option termio_termsize_s)
    (inp : List ReadEvt) (s : St) :
    ((termio_termsize_setup P env sz inp s).ret = -1 ∧
      (termio_termsize_setup P env sz inp s).sz = sz ∧
      ((env.write_ret ≠ 6 ∧ (termio_termsize_setup P env sz inp s).s = s.after_write env ∧
          (termio_termsize_setup P env sz inp s).inp = inp) ∨
        (env.write_ret = 6 ∧
          ReadsOnly (s.after_query env) (termio_termsize_setup P env sz inp s).s))) ∨
    ((termio_termsize_setup P env sz inp s).ret = 0 ∧ env.write_ret = 6 ∧
      ∃ csi ds_r ds_c, is_csi csi ∧ (∀ d ∈ ds_r, is_digit d) ∧ (∀ d ∈ ds_c, is_digit d) ∧
        inp = reply_events (size_reply csi ds_r ds_c) ++
          (termio_termsize_setup P env sz inp s).inp) := by
  have hlen : (termsize_query_len : Int) = 6 := by decide
  by_cases hw : env.write_ret = 6
  · have hcsi := expect_csi_readsOnly inp (s.after_query env)
    have hcsi2 := expect_csi_true inp (s.after_query env)
    rcases h1 : expect_csi inp (s.after_query env) with ⟨b1, inp2, s2⟩
    rw [h1] at hcsi hcsi2
    have hex := expect_readsOnly response inp2 s2
    have hex2 := expect_true response inp2 s2
    rcases h2 : expect response inp2 s2 with ⟨b2, inp3, s3⟩
    rw [h2] at hex hex2
    have hlp := size_loop_readsOnly inp3 s3 ParseState.STATE_ROWS ⟨0, 0⟩
    have hlp2 := size_loop_rows_done inp3 s3 ⟨0, 0⟩
    have hlp3 := size_loop_ret inp3 s3 ParseState.STATE_ROWS ⟨0, 0⟩
    simp only [St.after_query, hw] at h1
    cases b1 with
    | false =>
      have hv : termio_termsize_setup P env sz inp s = ⟨-1, sz, inp2, s2⟩ := by
        unfold termio_termsize_setup
        simp only [hw, hlen, ne_eq, not_true_eq_false, if_false, h1]
      rw [hv]
      exact Or.inl ⟨rfl, rfl, Or.inr ⟨hw, hcsi⟩⟩
    | true =>
      cases b2 with
      | false =>
        have hv : termio_termsize_setup P env sz inp s = ⟨-1, sz, inp3, s3⟩ := by
          unfold termio_termsize_setup
          simp only [hw, hlen, ne_eq, not_true_eq_false, if_false, h1, h2]
        rw [hv]
        exact Or.inl ⟨rfl, rfl, Or.inr ⟨hw, hcsi.trans hex⟩⟩
      | true =>
        cases hr : (size_loop inp3 s3 ParseState.STATE_ROWS ⟨0, 0⟩).ret with
        | some code =>
          have hv : termio_termsize_setup P env sz inp s =
              ⟨code, sz, (size_loop inp3 s3 ParseState.STATE_ROWS ⟨0, 0⟩).inp,
                (size_loop inp3 s3 ParseState.STATE_ROWS ⟨0, 0⟩).s⟩ := by
            unfold termio_termsize_setup
            simp only [hw, hlen, ne_eq, not_true_eq_false, if_false, h1, h2, hr]
          rw [hv]
          exact Or.inl ⟨hlp3 code hr, rfl, Or.inr ⟨hw, (hcsi.trans hex).trans hlp⟩⟩
        | none =>
          by_cases hd : (size_loop inp3 s3 ParseState.STATE_ROWS ⟨0, 0⟩).curstate
              = ParseState.STATE_DONE
          · have hv : (termio_termsize_setup P env sz inp s).ret = 0 ∧
                (termio_termsize_setup P env sz inp s).inp =
                  (size_loop inp3 s3 ParseState.STATE_ROWS ⟨0, 0⟩).inp := by
              unfold termio_termsize_setup
              simp only [hw, hlen, ne_eq, not_true_eq_false, if_false, h1, h2, hr, hd,
                and_self]
            refine Or.inr ⟨hv.1, hw, ?_⟩
            obtain ⟨csi, hc, e1⟩ := hcsi2 rfl
            have e2 := hex2 rfl
            obtain ⟨ds_r, ds_c, hdr, hdc, e3⟩ := hlp2 hr hd
            refine ⟨csi, ds_r, ds_c, hc, hdr, hdc, ?_⟩
            rw [size_reply_events, hv.2]
            exact e1.trans (congrArg _ (e2.trans (congrArg _ e3)))
          · have hv : termio_termsize_setup P env sz inp s =
                ⟨-1, sz, (size_loop inp3 s3 ParseState.STATE_ROWS ⟨0, 0⟩).inp,
                  (size_loop inp3 s3 ParseState.STATE_ROWS ⟨0, 0⟩).s⟩ := by
              unfold termio_termsize_setup
              simp only [hw, hlen, ne_eq, not_true_eq_false, if_false, h1, h2, hr, hd,
                not_false_eq_true, if_true]
            rw [hv]
            exact Or.inl ⟨rfl, rfl, Or.inr ⟨hw, (hcsi.trans hex).trans hlp⟩⟩
  · have hv : termio_termsize_setup P env sz inp s = ⟨-1, sz, inp, s.after_write env⟩ := by
      unfold termio_termsize_setup
      simp only [hw, hlen, ne_eq, not_false_eq_true, if_true, St.after_write]
    rw [hv]
    exact Or.inl ⟨rfl, rfl, Or.inl ⟨hw, rfl, rfl⟩⟩

theorem accumulate_mod (ds : List Nat) (v : Nat) :
    accumulate (v % 2 ^ 32) ds = (ds.foldl (fun v ch => v * 10 + (ch - 48)) v) % 2 ^ 32 := by
  induction ds generalizing v with
  | nil => simp [accumulate]
  | cons d ds ih =>
    have := ih (v * 10 + (d - 48))
    simp only [accumulate, List.foldl_cons] at this ⊢
    rw [← this]
    congr 1
    omega

theorem foldl_digits (L : List Nat) :
    (L.reverse.map (fun d => d + 48)).foldl (fun v ch => v * 10 + (ch - 48)) 0
      = Nat.ofDigits 10 L := by
  induction L with
  | nil => simp
  | cons d L ih =>
    simp only [List.reverse_cons, List.map_append, List.foldl_append, ih, List.map_cons,
      List.map_nil, List.foldl_cons, List.foldl_nil, Nat.ofDigits_cons]
    simp
    ring

theorem accumulate_decimal (n : Nat) : accumulate 0 (decimal n) = n % 2 ^ 32 := by
  by_cases h : n = 0
  · subst h; decide
  · have := accumulate_mod (decimal n) 0
    simp only [Nat.zero_mod] at this
    rw [this]
    simp only [decimal, h, if_false]
    rw [foldl_digits, Nat.ofDigits_digits]

theorem decimal_digits (n : Nat) : ∀ d ∈ decimal n, is_digit d := by
  intro d hd
  by_cases h : n = 0
  · subst h
    simp [decimal] at hd
    subst hd
    decide
  · simp only [decimal, h, if_false, List.mem_map, List.mem_reverse] at hd
    obtain ⟨x, hx, rfl⟩ := hd
    have := Nat.digits_lt_base (by norm_num : 1 < 10) hx
    unfold is_digit
    omega


theorem reply_events_append (a b : List Nat) :
    reply_events (a ++ b) = reply_events a ++ reply_events b := by
  simp [reply_events]

theorem reply_events_split (w bs : List Nat) (x : List ReadEvt)
    (h : reply_events bs = reply_events w ++ x) :
    ∃ rest, x = reply_events rest ∧ bs = w ++ rest := by
  induction w generalizing bs with
  | nil => exact ⟨bs, by simpa [reply_events] using h.symm, rfl⟩
  | cons y w ih =>
    cases bs with
    | nil => simp [reply_events] at h
    | cons b bs =>
      simp only [reply_events, List.map_cons, List.cons_append, List.cons.injEq,
        ReadEvt.byte.injEq] at h
      obtain ⟨rest, hx, hb⟩ := ih bs h.2
      exact ⟨rest, hx, by rw [h.1, hb]; rfl⟩

theorem reply_events_cut (w pre : List Nat) (rest x : List ReadEvt)
    (hrest : ∀ b, (next_event rest).1 ≠ ReadEvt.byte b)
    (h : reply_events pre ++ rest = reply_events w ++ x) :
    ∃ u, pre = w ++ u := by
  induction w generalizing pre with
  | nil => exact ⟨pre, rfl⟩
  | cons y w ih =>
    cases pre with
    | nil =>
      cases rest with
      | nil => simp [reply_events] at h
      | cons ev tl =>
        simp only [reply_events, List.map_nil, List.nil_append, List.map_cons,
          List.cons_append, List.cons.injEq] at h
        exact absurd h.1 (hrest y)
    | cons b pre =>
      simp only [reply_events, List.map_cons, List.cons_append, List.cons.injEq,
        ReadEvt.byte.injEq] at h
      obtain ⟨u, hu⟩ := ih pre h.2
      exact ⟨u, by rw [h.1, hu]; rfl⟩

theorem reads_readsOnly (n : Nat) (s : St) : ReadsOnly s (St.reads n s) := by
  induction n generalizing s with
  | zero => exact ReadsOnly.refl s
  | succ n ih =>
    exact (timed_readchar_readsOnly (ReadEvt.byte 0) s).trans (ih s.read_ok)

theorem after_reply_readsOnly (env : QueryEnv) (csi ds_r ds_c : List Nat) (s : St) :
    ReadsOnly (s.after_query env) (s.after_reply env csi ds_r ds_c) := by
  unfold St.after_reply
  have r1 := fun (t : St) => timed_readchar_readsOnly (ReadEvt.byte 0) t
  exact ((((((reads_readsOnly _ _).trans (reads_readsOnly _ _)).trans
    (reads_readsOnly _ _)).trans (r1 _)).trans (reads_readsOnly _ _)).trans (r1 _))

/-- A successful call, in full: the write was complete, the events begin with a
reply of the expected format, and the result is the one computed from it. -/
theorem setup_success (P : Platform) (env : QueryEnv) (sz : Option termio_termsize_s)
    (inp : List ReadEvt) (s : St) (h : (termio_termsize_setup P env sz inp s).ret = 0) :
    env.write_ret = 6 ∧
    ∃ csi ds_r ds_c rest, is_csi csi ∧ (∀ d ∈ ds_r, is_digit d) ∧ (∀ d ∈ ds_c, is_digit d) ∧
      inp = reply_events (size_reply csi ds_r ds_c) ++ rest ∧
      termio_termsize_setup P env sz inp s =
        ⟨0, sz.map (fun _ => ⟨accumulate 0 ds_r, accumulate 0 ds_c⟩), rest,
          ⟨(s.after_reply env csi ds_r ds_c).ctx,
            sys_tiocswinsz env.winsz_ok (s.after_reply env csi ds_r ds_c).ctx.fd
              ⟨accumulate 0 ds_r % 2 ^ P.ushort_bits, accumulate 0 ds_c % 2 ^ P.ushort_bits,
                0, 0⟩
              (s.after_reply env csi ds_r ds_c).os⟩⟩ := by
  rcases setup_cases P env sz inp s with ⟨h1, _⟩ | ⟨_, hw, csi, ds_r, ds_c, hc, hr, hcl, e⟩
  · rw [h] at h1; exact absurd h1 (by decide)
  · refine ⟨hw, csi, ds_r, ds_c, _, hc, hr, hcl, e, ?_⟩
    have := setup_size_reply P env sz csi ds_r ds_c
      (termio_termsize_setup P env sz inp s).inp s hw hc hr hcl
    rw [← e] at this
    exact this

/-- A failed call: the code is -1, the caller's object, the window size of the
device and its configuration are as before, no window size was pushed and no
configuration written. -/
theorem setup_failure (P : Platform) (env : QueryEnv) (sz : Option termio_termsize_s)
    (inp : List ReadEvt) (s : St) (h : (termio_termsize_setup P env sz inp s).ret ≠ 0) :
    (termio_termsize_setup P env sz inp s).ret = -1 ∧
    (termio_termsize_setup P env sz inp s).sz = sz ∧
    (termio_termsize_setup P env sz inp s).s.os.winsz = s.os.winsz ∧
    pushes (termio_termsize_setup P env sz inp s).s.os.trace = pushes s.os.trace := by
  rcases setup_cases P env sz inp s with ⟨h1, h2, h3⟩ | ⟨h1, _⟩
  · refine ⟨h1, h2, ?_⟩
    rcases h3 with ⟨_, e, _⟩ | ⟨_, ro⟩
    · rw [e]
      simp [St.after_write, sys_write, OS.log, pushes]
    · have hp := ro.pushes_eq
      obtain ⟨_, _, _, w, _⟩ := ro
      rw [w, hp]
      simp [St.after_query, sys_write, OS.log, pushes]
  · exact absurd h1 h

theorem sys_tiocswinsz_winsz (ok : Bool) (fd : Int) (ws : winsize) (os : OS) :
    (sys_tiocswinsz ok fd ws os).winsz = if ok = true then ws else os.winsz := by
  cases ok <;> simp [sys_tiocswinsz, OS.log]

theorem sys_tiocswinsz_pushes (ok : Bool) (fd : Int) (ws : winsize) (os : OS) :
    pushes (sys_tiocswinsz ok fd ws os).trace = pushes os.trace ++ [ws] := by
  cases ok <;> simp [sys_tiocswinsz, OS.log, pushes]

theorem after_query_frame (env : QueryEnv) (s : St) :
    (s.after_query env).ctx = s.ctx ∧ (s.after_query env).os.tios = s.os.tios ∧
    (s.after_query env).os.winsz = s.os.winsz ∧
    pushes (s.after_query env).os.trace = pushes s.os.trace ∧
    tcsets_calls (s.after_query env).os.trace = tcsets_calls s.os.trace := by
  simp [St.after_query, sys_write, OS.log, pushes, tcsets_calls]

/-- What a call leaves on a reply of the expected format, field by field. -/
theorem setup_size_reply_obs (P : Platform) (env : QueryEnv) (sz : Option termio_termsize_s)
    (csi ds_r ds_c : List Nat) (rest : List ReadEvt) (s : St)
    (hw : env.write_ret = 6) (hcsi : is_csi csi)
    (hr : ∀ d ∈ ds_r, is_digit d) (hc : ∀ d ∈ ds_c, is_digit d) :
    (termio_termsize_setup P env sz (reply_events (size_reply csi ds_r ds_c) ++ rest) s).ret
      = 0 ∧
    (termio_termsize_setup P env sz (reply_events (size_reply csi ds_r ds_c) ++ rest) s).sz
      = sz.map (fun _ => ⟨accumulate 0 ds_r, accumulate 0 ds_c⟩) ∧
    (termio_termsize_setup P env sz (reply_events (size_reply csi ds_r ds_c) ++ rest) s).inp
      = rest ∧
    (termio_termsize_setup P env sz
        (reply_events (size_reply csi ds_r ds_c) ++ rest) s).s.os.winsz
      = (if env.winsz_ok = true then
          ⟨accumulate 0 ds_r % 2 ^ P.ushort_bits, accumulate 0 ds_c % 2 ^ P.ushort_bits, 0, 0⟩
        else s.os.winsz) ∧
    pushes (termio_termsize_setup P env sz
        (reply_events (size_reply csi ds_r ds_c) ++ rest) s).s.os.trace
      = pushes s.os.trace ++
        [⟨accumulate 0 ds_r % 2 ^ P.ushort_bits, accumulate 0 ds_c % 2 ^ P.ushort_bits, 0, 0⟩] := by
  rw [setup_size_reply P env sz csi ds_r ds_c rest s hw hcsi hr hc]
  have ro := after_reply_readsOnly env csi ds_r ds_c s
  have hp := ro.pushes_eq
  obtain ⟨_, _, _, w, _⟩ := ro
  have aq := after_query_frame env s
  refine ⟨rfl, rfl, rfl, ?_, ?_⟩
  · simp only [sys_tiocswinsz_winsz, w, aq.2.2.1]
  · simp only [sys_tiocswinsz_pushes, hp, aq.2.2.2.1]

/-- C1. Round trip: for all naturals `r` and `c` below 2^32, when the write of
the query is complete and the terminal replies ESC `[` `8` `;`, the canonical
decimal rendering of `r`, `;`, the canonical decimal rendering of `c`, `t`,
`termio_termsize_setup` returns 0 and the object `sz` points to holds
`term_rows = r` and `term_cols = c`. -/
theorem termsize_round_trip (P : Platform) (env : QueryEnv) (old : termio_termsize_s)
    (s : St) (r c : Nat) (hr : r < 2 ^ 32) (hc : c < 2 ^ 32)
    (hw : env.write_ret = (termsize_query_len : Int)) :
    (termio_termsize_setup P env (some old)
      (reply_events ([27, 91, 56, 59] ++ decimal r ++ [59] ++ decimal c ++ [116])) s).ret = 0 ∧
    (termio_termsize_setup P env (some old)
      (reply_events ([27, 91, 56, 59] ++ decimal r ++ [59] ++ decimal c ++ [116])) s).sz
      = some ⟨r, c⟩ := by
  have hw6 : env.write_ret = 6 := by rw [hw]; decide
  have e : reply_events ([27, 91, 56, 59] ++ decimal r ++ [59] ++ decimal c ++ [116]) =
      reply_events (size_reply [0x1B, 0x5B] (decimal r) (decimal c)) ++ [] := by
    simp [size_reply]
  rw [e]
  have h := setup_size_reply_obs P env (some old) [0x1B, 0x5B] (decimal r) (decimal c) [] s
    hw6 (Or.inr rfl) (decimal_digits r) (decimal_digits c)
  refine ⟨h.1, ?_⟩
  rw [h.2.1, accumulate_decimal, accumulate_decimal, Nat.mod_eq_of_lt hr, Nat.mod_eq_of_lt hc]
  rfl

/-- C1, witness: the reply ESC `[8;24;80t` gives rows 24 and columns 80. -/
theorem termsize_round_trip_witness :
    (24 < 2 ^ 32 ∧ 80 < 2 ^ 32 ∧ sample_env.write_ret = (termsize_query_len : Int)) ∧
    (termio_termsize_setup linux sample_env (some ⟨0, 0⟩)
      (reply_events [27, 91, 56, 59, 50, 52, 59, 56, 48, 116]) sample_st).ret = 0 ∧
    (termio_termsize_setup linux sample_env (some ⟨0, 0⟩)
      (reply_events [27, 91, 56, 59, 50, 52, 59, 56, 48, 116]) sample_st).sz
      = some ⟨24, 80⟩ :=
  ⟨⟨by decide, by decide, by decide⟩,
    by simpa [decimal] using
      termsize_round_trip linux sample_env ⟨0, 0⟩ sample_st 24 80 (by decide) (by decide)
        (by decide)⟩

/-- C2. Accepted language: when the write of the query is complete, on every
reply byte stream `bs` (after which reads time out) `termio_termsize_setup`
returns 0 if and only if `bs` begins with a CSI (0x9B, or ESC `[`), then `8;`,
then a possibly empty run of ASCII digits, then `;`, then a possibly empty run
of ASCII digits, then `t`; on every other reply it returns -1, and so it does
on ESC `[8;24x`. -/
theorem reply_accepted_iff (P : Platform) (env : QueryEnv) (sz : Option termio_termsize_s)
    (s : St) (bs : List Nat) (hw : env.write_ret = (termsize_query_len : Int)) :
    ((termio_termsize_setup P env sz (reply_events bs) s).ret = 0 ↔
      ∃ csi ds_r ds_c rest, is_csi csi ∧ (∀ d ∈ ds_r, is_digit d) ∧
        (∀ d ∈ ds_c, is_digit d) ∧
        bs = csi ++ [56, 59] ++ ds_r ++ [59] ++ ds_c ++ [116] ++ rest) ∧
    ((termio_termsize_setup P env sz (reply_events bs) s).ret ≠ 0 →
      (termio_termsize_setup P env sz (reply_events bs) s).ret = -1) ∧
    (termio_termsize_setup P env sz (reply_events [27, 91, 56, 59, 50, 52, 120]) s).ret
      = -1 := by
  have hw6 : env.write_ret = 6 := by rw [hw]; decide
  refine ⟨⟨?_, ?_⟩, fun h => (setup_failure P env sz _ s h).1, ?_⟩
  · intro h
    obtain ⟨_, csi, ds_r, ds_c, x, hc, hdr, hdc, e, _⟩ := setup_success P env sz _ s h
    obtain ⟨rest, _, hb⟩ := reply_events_split _ _ _ e
    exact ⟨csi, ds_r, ds_c, rest, hc, hdr, hdc, hb⟩
  · rintro ⟨csi, ds_r, ds_c, rest, hc, hdr, hdc, rfl⟩
    have := setup_size_reply_obs P env sz csi ds_r ds_c (reply_events rest) s hw6 hc hdr hdc
    rw [← reply_events_append] at this
    exact this.1
  · unfold termio_termsize_setup
    simp [hw6, termsize_query_len, termsize_query, ANSI_CSI_7BIT, reply_events, expect_csi,
      next_event, timed_readchar, expect, response, size_loop, loop_body]

/-- C2, witness: with a complete write, on ESC `[8;24;80t`. -/
theorem reply_accepted_iff_witness :
    sample_env.write_ret = (termsize_query_len : Int) ∧
    (((termio_termsize_setup linux sample_env none
        (reply_events [27, 91, 56, 59, 50, 52, 59, 56, 48, 116]) sample_st).ret = 0 ↔
      ∃ csi ds_r ds_c rest, is_csi csi ∧ (∀ d ∈ ds_r, is_digit d) ∧
        (∀ d ∈ ds_c, is_digit d) ∧
        [27, 91, 56, 59, 50, 52, 59, 56, 48, 116]
          = csi ++ [56, 59] ++ ds_r ++ [59] ++ ds_c ++ [116] ++ rest) ∧
    ((termio_termsize_setup linux sample_env none
        (reply_events [27, 91, 56, 59, 50, 52, 59, 56, 48, 116]) sample_st).ret ≠ 0 →
      (termio_termsize_setup linux sample_env none
        (reply_events [27, 91, 56, 59, 50, 52, 59, 56, 48, 116]) sample_st).ret = -1) ∧
    (termio_termsize_setup linux sample_env none
      (reply_events [27, 91, 56, 59, 50, 52, 120]) sample_st).ret = -1) :=
  ⟨by decide,
    reply_accepted_iff linux sample_env none sample_st
      [27, 91, 56, 59, 50, 52, 59, 56, 48, 116] (by decide)⟩

theorem size_reply_head_9B (csi ds_r ds_c tail : List Nat) (rest : List ReadEvt)
    (hc : is_csi csi)
    (e : reply_events (0x9B :: tail) = reply_events (size_reply csi ds_r ds_c) ++ rest) :
    reply_events (0x1B :: 0x5B :: tail)
      = reply_events (size_reply [0x1B, 0x5B] ds_r ds_c) ++ rest := by
  rcases hc with rfl | rfl
  · simp only [size_reply, reply_events, List.map_cons, List.cons_append, List.nil_append,
      List.map_append, List.cons.injEq, true_and, List.append_assoc] at e ⊢
    exact e
  · simp [size_reply, reply_events] at e

theorem size_reply_head_1B (csi ds_r ds_c tail : List Nat) (rest : List ReadEvt)
    (hc : is_csi csi)
    (e : reply_events (0x1B :: 0x5B :: tail)
      = reply_events (size_reply csi ds_r ds_c) ++ rest) :
    reply_events (0x9B :: tail) = reply_events (size_reply [0x9B] ds_r ds_c) ++ rest := by
  rcases hc with rfl | rfl
  · simp [size_reply, reply_events] at e
  · simp only [size_reply, reply_events, List.map_cons, List.cons_append, List.nil_append,
      List.map_append, List.cons.injEq, true_and, List.append_assoc] at e ⊢
    exact e

/-- C3. 8-bit CSI equivalence: for every byte sequence `tail`, the call on the
reply 0x9B followed by `tail` and the call on the reply 0x1B `[` followed by
`tail` have the same return code, leave the same object behind `sz`, push the
same window sizes and leave the same window size in the device; and
0x9B `8;24;80t` yields rows 24 and columns 80. -/
theorem csi_8bit_equiv :
    (∀ (P : Platform) (env : QueryEnv) (sz : Option termio_termsize_s) (s : St)
      (tail : List Nat),
      (termio_termsize_setup P env sz (reply_events (0x9B :: tail)) s).ret
        = (termio_termsize_setup P env sz (reply_events (0x1B :: 0x5B :: tail)) s).ret ∧
      (termio_termsize_setup P env sz (reply_events (0x9B :: tail)) s).sz
        = (termio_termsize_setup P env sz (reply_events (0x1B :: 0x5B :: tail)) s).sz ∧
      pushes (termio_termsize_setup P env sz (reply_events (0x9B :: tail)) s).s.os.trace
        = pushes
          (termio_termsize_setup P env sz (reply_events (0x1B :: 0x5B :: tail)) s).s.os.trace ∧
      (termio_termsize_setup P env sz (reply_events (0x9B :: tail)) s).s.os.winsz
        = (termio_termsize_setup P env sz
            (reply_events (0x1B :: 0x5B :: tail)) s).s.os.winsz) ∧
    (termio_termsize_setup linux sample_env (some ⟨0, 0⟩)
        (reply_events [0x9B, 56, 59, 50, 52, 59, 56, 48, 116]) sample_st).sz
      = some ⟨24, 80⟩ ∧
    (termio_termsize_setup linux sample_env (some ⟨0, 0⟩)
        (reply_events [0x1B, 0x5B, 56, 59, 50, 52, 59, 56, 48, 116]) sample_st).sz
      = some ⟨24, 80⟩ := by
  refine ⟨?_, by decide, by decide⟩
  intro P env sz s tail
  by_cases ha : (termio_termsize_setup P env sz (reply_events (0x9B :: tail)) s).ret = 0
  · obtain ⟨hw, csi, ds_r, ds_c, rest, hc, hdr, hdc, e, _⟩ := setup_success P env sz _ s ha
    have ea := size_reply_head_1B [0x1B, 0x5B] ds_r ds_c tail rest (Or.inr rfl)
      (size_reply_head_9B csi ds_r ds_c tail rest hc e)
    have eb := size_reply_head_9B csi ds_r ds_c tail rest hc e
    have oa := setup_size_reply_obs P env sz [0x9B] ds_r ds_c rest s hw (Or.inl rfl) hdr hdc
    have ob := setup_size_reply_obs P env sz [0x1B, 0x5B] ds_r ds_c rest s hw (Or.inr rfl)
      hdr hdc
    rw [← ea] at oa
    rw [← eb] at ob
    exact ⟨oa.1.trans ob.1.symm, oa.2.1.trans ob.2.1.symm,
      oa.2.2.2.2.trans ob.2.2.2.2.symm, oa.2.2.2.1.trans ob.2.2.2.1.symm⟩
  · have hb : (termio_termsize_setup P env sz (reply_events (0x1B :: 0x5B :: tail)) s).ret
        ≠ 0 := by
      intro hb
      obtain ⟨hw, csi, ds_r, ds_c, rest, hc, hdr, hdc, e, _⟩ := setup_success P env sz _ s hb
      have ea := size_reply_head_1B csi ds_r ds_c tail rest hc e
      have oa := setup_size_reply_obs P env sz [0x9B] ds_r ds_c rest s hw (Or.inl rfl)
        hdr hdc
      rw [← ea] at oa
      exact ha oa.1
    have fa := setup_failure P env sz _ s ha
    have fb := setup_failure P env sz _ s hb
    exact ⟨fa.1.trans fb.1.symm, fa.2.1.trans fb.2.1.symm,
      fa.2.2.2.trans fb.2.2.2.symm, fa.2.2.1.trans fb.2.2.1.symm⟩

/-- C5, counterexample: on the reply 0x9B `8;65536;80t` the call succeeds, the
caller is given 65536 rows, and the window size pushed to the device has
`ws_row = 0`. -/
theorem pushed_size_differs :
    (termio_termsize_setup linux sample_env (some ⟨0, 0⟩)
      (reply_events [0x9B, 56, 59, 54, 53, 53, 51, 54, 59, 56, 48, 116]) sample_st).ret = 0 ∧
    (termio_termsize_setup linux sample_env (some ⟨0, 0⟩)
      (reply_events [0x9B, 56, 59, 54, 53, 53, 51, 54, 59, 56, 48, 116]) sample_st).sz
      = some ⟨65536, 80⟩ ∧
    pushes (termio_termsize_setup linux sample_env (some ⟨0, 0⟩)
      (reply_events [0x9B, 56, 59, 54, 53, 53, 51, 54, 59, 56, 48, 116]) sample_st).s.os.trace
      = [⟨0, 80, 0, 0⟩] ∧
    (termio_termsize_setup linux sample_env (some ⟨0, 0⟩)
      (reply_events [0x9B, 56, 59, 54, 53, 53, 51, 54, 59, 56, 48, 116])
        sample_st).s.os.winsz.ws_row = 0 := by
  decide

/-- C5, amended. For every run on which `termio_termsize_setup` succeeds,
whether `sz` is null or not, exactly one window size is pushed to the device;
its `ws_row` is the returned `term_rows` (the value `t.term_rows` stored
through every non-null `sz`) reduced modulo 2^`ushort_bits` (the width of the
`unsigned short` fields of `struct winsize`), its `ws_col` is the returned
`term_cols` reduced likewise, and both pixel dimensions are zero; so the device
is told the size the caller is given when both are below 2^`ushort_bits`. -/
theorem pushed_size_is_returned_mod (P : Platform) (env : QueryEnv)
    (sz : Option termio_termsize_s) (inp : List ReadEvt) (s : St)
    (h : (termio_termsize_setup P env sz inp s).ret = 0) :
    ∃ t, (termio_termsize_setup P env sz inp s).sz = sz.map (fun _ => t) ∧
      (∀ old, (termio_termsize_setup P env (some old) inp s).ret = 0 ∧
        (termio_termsize_setup P env (some old) inp s).sz = some t) ∧
      pushes (termio_termsize_setup P env sz inp s).s.os.trace
        = pushes s.os.trace ++
          [⟨t.term_rows % 2 ^ P.ushort_bits, t.term_cols % 2 ^ P.ushort_bits, 0, 0⟩] ∧
      (t.term_rows < 2 ^ P.ushort_bits → t.term_cols < 2 ^ P.ushort_bits →
        pushes (termio_termsize_setup P env sz inp s).s.os.trace
          = pushes s.os.trace ++ [⟨t.term_rows, t.term_cols, 0, 0⟩]) := by
  obtain ⟨hw, csi, ds_r, ds_c, rest, hc, hdr, hdc, e, _⟩ := setup_success P env _ inp s h
  have o := setup_size_reply_obs P env sz csi ds_r ds_c rest s hw hc hdr hdc
  rw [← e] at o
  refine ⟨⟨accumulate 0 ds_r, accumulate 0 ds_c⟩, o.2.1, ?_, o.2.2.2.2, ?_⟩
  · intro old
    have o1 := setup_size_reply_obs P env (some old) csi ds_r ds_c rest s hw hc hdr hdc
    rw [← e] at o1
    exact ⟨o1.1, o1.2.1⟩
  · intro h1 h2
    rw [o.2.2.2.2]
    simp only at h1 h2
    rw [Nat.mod_eq_of_lt h1, Nat.mod_eq_of_lt h2]

/-- C5 amended, witness: the reply ESC `[8;24;80t` with a null `sz`, as `main`
of `tsize.c` calls it. -/
theorem pushed_size_is_returned_mod_witness :
    (termio_termsize_setup linux sample_env none
      (reply_events [27, 91, 56, 59, 50, 52, 59, 56, 48, 116]) sample_st).ret = 0 ∧
    ∃ t, (termio_termsize_setup linux sample_env none
        (reply_events [27, 91, 56, 59, 50, 52, 59, 56, 48, 116]) sample_st).sz
        = (none : Option termio_termsize_s).map (fun _ => t) ∧
      (∀ old, (termio_termsize_setup linux sample_env (some old)
          (reply_events [27, 91, 56, 59, 50, 52, 59, 56, 48, 116]) sample_st).ret = 0 ∧
        (termio_termsize_setup linux sample_env (some old)
          (reply_events [27, 91, 56, 59, 50, 52, 59, 56, 48, 116]) sample_st).sz = some t) ∧
      pushes (termio_termsize_setup linux sample_env none
        (reply_events [27, 91, 56, 59, 50, 52, 59, 56, 48, 116]) sample_st).s.os.trace
        = pushes sample_st.os.trace ++
          [⟨t.term_rows % 2 ^ linux.ushort_bits, t.term_cols % 2 ^ linux.ushort_bits, 0, 0⟩] ∧
      (t.term_rows < 2 ^ linux.ushort_bits → t.term_cols < 2 ^ linux.ushort_bits →
        pushes (termio_termsize_setup linux sample_env none
          (reply_events [27, 91, 56, 59, 50, 52, 59, 56, 48, 116]) sample_st).s.os.trace
          = pushes sample_st.os.trace ++ [⟨t.term_rows, t.term_cols, 0, 0⟩]) :=
  ⟨by decide,
    pushed_size_is_returned_mod linux sample_env none
      (reply_events [27, 91, 56, 59, 50, 52, 59, 56, 48, 116]) sample_st (by decide)⟩

/-- C4, the code at a failing input: with a complete write on the sample
session, the bytes `termio_termsize_setup` passes to `write` and that reach the
descriptor are 0x1B 0x5B 0x31 0x38 0x74 followed by a NUL byte, six bytes, not
the five of ESC `[18t`. -/
theorem query_written_has_nul :
    (termio_termsize_setup linux sample_env none
      (reply_events [27, 91, 56, 59, 50, 52, 59, 56, 48, 116]) sample_st).s.os.output
      = [0x1B, 0x5B, 0x31, 0x38, 0x74, 0x00] ∧
    (termio_termsize_setup linux sample_env none
      (reply_events [27, 91, 56, 59, 50, 52, 59, 56, 48, 116]) sample_st).s.os.trace.head?
      = some (Sys.write 0 [0x1B, 0x5B, 0x31, 0x38, 0x74, 0x00] 6) ∧
    (termio_termsize_setup linux sample_env none
      (reply_events [27, 91, 56, 59, 50, 52, 59, 56, 48, 116]) sample_st).s.os.output
      ≠ [0x1B, 0x5B, 0x31, 0x38, 0x74] := by
  decide

/-- C6. Failure is atomic: on every run on which `termio_termsize_setup`
returns a failure code (whatever the write returned and whatever the reads
did), no window size is pushed to the device, the window size of the device is
the one before the call, and the object `sz` points to is exactly as it was
before the call. -/
theorem failure_is_atomic (P : Platform) (env : QueryEnv) (sz : Option termio_termsize_s)
    (inp : List ReadEvt) (s : St)
    (h : (termio_termsize_setup P env sz inp s).ret < 0) :
    pushes (termio_termsize_setup P env sz inp s).s.os.trace = pushes s.os.trace ∧
    (termio_termsize_setup P env sz inp s).s.os.winsz = s.os.winsz ∧
    (termio_termsize_setup P env sz inp s).sz = sz := by
  have f := setup_failure P env sz inp s (by omega)
  exact ⟨f.2.2.2, f.2.2.1, f.2.1⟩

/-- C6, witness: the malformed reply ESC `[8;24x`, with `sz` pointing to a
3 x 5 size. -/
theorem failure_is_atomic_witness :
    (termio_termsize_setup linux sample_env (some ⟨3, 5⟩)
      (reply_events [27, 91, 56, 59, 50, 52, 120]) sample_st).ret < 0 ∧
    pushes (termio_termsize_setup linux sample_env (some ⟨3, 5⟩)
      (reply_events [27, 91, 56, 59, 50, 52, 120]) sample_st).s.os.trace
      = pushes sample_st.os.trace ∧
    (termio_termsize_setup linux sample_env (some ⟨3, 5⟩)
      (reply_events [27, 91, 56, 59, 50, 52, 120]) sample_st).s.os.winsz
      = sample_st.os.winsz ∧
    (termio_termsize_setup linux sample_env (some ⟨3, 5⟩)
      (reply_events [27, 91, 56, 59, 50, 52, 120]) sample_st).sz = some ⟨3, 5⟩ :=
  ⟨by decide,
    failure_is_atomic linux sample_env (some ⟨3, 5⟩)
      (reply_events [27, 91, 56, 59, 50, 52, 120]) sample_st (by decide)⟩

/-- C7. Timeout at any read point fails the query: for every well-formed reply
and every proper prefix `pre` of it (the empty one included), when the terminal
delivers only `pre` and the next timed read does not deliver a byte (it times
out or fails), `termio_termsize_setup` returns -1 and leaves the object `sz`
points to as it was, however many digits had been accumulated. -/
theorem timeout_fails (P : Platform) (env : QueryEnv) (sz : Option termio_termsize_s)
    (s : St) (csi ds_r ds_c pre suf : List Nat) (rest : List ReadEvt)
    (hcsi : is_csi csi) (hdr : ∀ d ∈ ds_r, is_digit d) (hdc : ∀ d ∈ ds_c, is_digit d)
    (hpre : csi ++ [56, 59] ++ ds_r ++ [59] ++ ds_c ++ [116] = pre ++ suf)
    (hproper : suf ≠ [])
    (hrest : ∀ b, (next_event rest).1 ≠ ReadEvt.byte b) :
    (termio_termsize_setup P env sz (reply_events pre ++ rest) s).ret = -1 ∧
    (termio_termsize_setup P env sz (reply_events pre ++ rest) s).sz = sz := by
  have hne : (termio_termsize_setup P env sz (reply_events pre ++ rest) s).ret ≠ 0 := by
    intro h0
    obtain ⟨hw, csi1, r1, c1, x, hc1, hr1, hcl1, e, _⟩ := setup_success P env sz _ s h0
    obtain ⟨u, hu⟩ := reply_events_cut _ pre rest x hrest e
    have o1 := setup_size_reply_obs P env sz csi ds_r ds_c [] s hw hcsi hdr hdc
    have o2 := setup_size_reply_obs P env sz csi1 r1 c1 (reply_events (u ++ suf)) s hw
      hc1 hr1 hcl1
    have hs : reply_events (size_reply csi ds_r ds_c) ++ []
        = reply_events (size_reply csi1 r1 c1) ++ reply_events (u ++ suf) := by
      rw [List.append_nil, ← reply_events_append]
      congr 1
      unfold size_reply at *
      rw [hpre, hu, List.append_assoc]
    rw [hs] at o1
    have := o1.2.2.1.symm.trans o2.2.2.1
    simp [reply_events] at this
    exact hproper this.2
  have f := setup_failure P env sz _ s hne
  exact ⟨f.1, f.2.1⟩

/-- C7, witness: of the reply ESC `[8;24;80t` only ESC `[8;24;8` arrives and
the next read times out. -/
theorem timeout_fails_witness :
    (is_csi [27, 91] ∧ (∀ d ∈ [50, 52], is_digit d) ∧ (∀ d ∈ [56, 48], is_digit d) ∧
      [27, 91] ++ [56, 59] ++ [50, 52] ++ [59] ++ [56, 48] ++ [116]
        = [27, 91, 56, 59, 50, 52, 59, 56] ++ [48, 116] ∧
      [48, 116] ≠ ([] : List Nat) ∧
      ∀ b, (next_event [ReadEvt.timeout]).1 ≠ ReadEvt.byte b) ∧
    (termio_termsize_setup linux sample_env (some ⟨3, 5⟩)
      (reply_events [27, 91, 56, 59, 50, 52, 59, 56] ++ [ReadEvt.timeout]) sample_st).ret
      = -1 ∧
    (termio_termsize_setup linux sample_env (some ⟨3, 5⟩)
      (reply_events [27, 91, 56, 59, 50, 52, 59, 56] ++ [ReadEvt.timeout]) sample_st).sz
      = some ⟨3, 5⟩ :=
  ⟨⟨Or.inr rfl, by decide, by decide, by decide, by decide, by simp [next_event]⟩,
    timeout_fails linux sample_env (some ⟨3, 5⟩) sample_st [27, 91] [50, 52] [56, 48]
      [27, 91, 56, 59, 50, 52, 59, 56] [48, 116] [ReadEvt.timeout]
      (Or.inr rfl) (by decide) (by decide) (by decide) (by decide) (by simp [next_event])⟩

/-! ## Lemmas on the session -/

theorem testBit_bnot32 (m i : Nat) :
    (bnot32 m).testBit i = (decide (i < 32) && !m.testBit i) := by
  unfold bnot32
  rw [Nat.testBit_xor, Nat.testBit_two_pow_sub_one, Nat.testBit_mod_two_pow]
  cases decide (i < 32) <;> cases m.testBit i <;> rfl

theorem and_bnot32_and (x m a : Nat) (h : ∀ i, a.testBit i = true → m.testBit i = true) :
    (x &&& bnot32 m) &&& a = 0 := by
  apply Nat.eq_of_testBit_eq
  intro i
  have hi := h i
  rw [Nat.testBit_and, Nat.testBit_and, testBit_bnot32, Nat.zero_testBit]
  cases ha : a.testBit i
  · simp
  · simp [hi ha]

theorem testBit_or_left (a b i : Nat) (h : a.testBit i = true) : (a ||| b).testBit i = true := by
  rw [Nat.testBit_or, h]; rfl

theorem testBit_or_right (a b i : Nat) (h : b.testBit i = true) : (a ||| b).testBit i = true := by
  rw [Nat.testBit_or, h]; simp

theorem testBit_of_and_eq (a m : Nat) (h : a &&& m = a) (i : Nat)
    (ha : a.testBit i = true) : m.testBit i = true := by
  have := congrArg (fun n => n.testBit i) h
  simp only [Nat.testBit_and, ha, Bool.true_and] at this
  exact this

theorem testBit_of_and_zero (a m : Nat) (h : a &&& m = 0) (i : Nat)
    (ha : a.testBit i = true) : m.testBit i = false := by
  have := congrArg (fun n => n.testBit i) h
  simp only [Nat.testBit_and, ha, Bool.true_and, Nat.zero_testBit] at this
  exact this

theorem testBit_of_lt32 (a : Nat) (h : a < 2 ^ 32) (i : Nat) (ha : a.testBit i = true) :
    i < 32 := by
  by_contra hi
  have : a < 2 ^ i := lt_of_lt_of_le h (Nat.pow_le_pow_right (by norm_num) (by omega))
  rw [Nat.testBit_lt_two_pow this] at ha
  exact Bool.noConfusion ha

/-- A successful `termio_init`, in full. -/
theorem termio_init_some (P : Platform) (env : InitEnv) (fd : Int) (os : OS)
    (ctx : termio_ctx_s) (os1 : OS) (h : termio_init P env fd os = (some ctx, os1)) :
    env.isatty = true ∧ env.tcgets_ok = true ∧ env.malloc_ok = true ∧
    env.tcsets_ok = true ∧
    ctx = ⟨fd, [], ⟨1, 0⟩, os.tios⟩ ∧
    os1 = ⟨raw_termios P os.tios, os.winsz, os.output,
      os.trace ++ [Sys.isatty fd, Sys.tcgets fd, Sys.tcsets fd (raw_termios P os.tios)],
      os.select_tv⟩ := by
  unfold termio_init at h
  cases h1 : env.isatty <;> cases h2 : env.tcgets_ok <;> cases h3 : env.malloc_ok <;>
    cases h4 : env.tcsets_ok <;>
    simp [h1, h2, h3, h4, sys_tcsets, OS.log] at h
  obtain ⟨rfl, rfl⟩ := h
  exact ⟨rfl, rfl, rfl, rfl, rfl, by simp⟩

/-- C9. Raw mode after open: for every initial configuration, after a
successful `termio_init` the configuration applied to the device has ICANON,
ECHO, ISIG and IEXTEN clear in `c_lflag`, OPOST clear in `c_oflag`, PARENB
clear in `c_cflag`, and the CSIZE field of `c_cflag` equal to CS8, whatever
those bits were before.  The platform is any on which CS8 is a 32-bit value of
the CSIZE field and does not contain the PARENB bit. -/
theorem raw_mode_after_open (P : Platform) (ienv : InitEnv) (fd : Int) (os : OS)
    (ctx : termio_ctx_s) (os1 : OS)
    (hcs8 : P.CS8 &&& P.CSIZE = P.CS8) (hpar : P.CS8 &&& P.PARENB = 0)
    (hlt : P.CS8 < 2 ^ 32)
    (hinit : termio_init P ienv fd os = (some ctx, os1)) :
    os1.tios.c_lflag &&& P.ICANON = 0 ∧ os1.tios.c_lflag &&& P.ECHO = 0 ∧
    os1.tios.c_lflag &&& P.ISIG = 0 ∧ os1.tios.c_lflag &&& P.IEXTEN = 0 ∧
    os1.tios.c_oflag &&& P.OPOST = 0 ∧
    os1.tios.c_cflag &&& P.PARENB = 0 ∧
    os1.tios.c_cflag &&& P.CSIZE = P.CS8 ∧
    tcsets_calls os1.trace = tcsets_calls os.trace ++ [os1.tios] := by
  obtain ⟨_, _, _, _, _, ho⟩ := termio_init_some P ienv fd os ctx os1 hinit
  subst ho
  refine ⟨?_, ?_, ?_, ?_, ?_, ?_, ?_, ?_⟩
  · exact and_bnot32_and _ _ _ (fun i h =>
      testBit_or_left _ _ i (testBit_or_left _ _ i (testBit_or_left _ _ i h)))
  · exact and_bnot32_and _ _ _ (fun i h =>
      testBit_or_left _ _ i (testBit_or_left _ _ i (testBit_or_right _ _ i h)))
  · exact and_bnot32_and _ _ _ (fun i h =>
      testBit_or_left _ _ i (testBit_or_right _ _ i h))
  · exact and_bnot32_and _ _ _ (fun i h => testBit_or_right _ _ i h)
  · exact and_bnot32_and _ _ _ (fun i h => h)
  · apply Nat.eq_of_testBit_eq
    intro i
    simp only [raw_termios, Nat.testBit_and, Nat.testBit_mod_two_pow, Nat.testBit_or,
      testBit_bnot32, Nat.zero_testBit]
    have h1 := testBit_of_and_zero _ _ hpar i
    cases hp : P.PARENB.testBit i
    · simp
    · cases hc : P.CS8.testBit i
      · simp
      · rw [h1 hc] at hp; exact Bool.noConfusion hp
  · apply Nat.eq_of_testBit_eq
    intro i
    simp only [raw_termios, Nat.testBit_and, Nat.testBit_mod_two_pow, Nat.testBit_or,
      testBit_bnot32]
    have h1 := testBit_of_and_eq _ _ hcs8 i
    have h2 := testBit_of_lt32 _ hlt i
    cases hc : P.CS8.testBit i
    · cases hz : P.CSIZE.testBit i <;> simp
    · simp [h1 hc, h2 hc]
  · simp [tcsets_calls, List.filterMap_append]

/-- C9, witness: the Linux constants and `termio_init` on the sample device. -/
theorem raw_mode_after_open_witness :
    (linux.CS8 &&& linux.CSIZE = linux.CS8 ∧ linux.CS8 &&& linux.PARENB = 0 ∧
      linux.CS8 < 2 ^ 32 ∧
      termio_init linux ⟨true, true, true, true⟩ 0 sample_os
        = (some ⟨0, [], ⟨1, 0⟩, sample_os.tios⟩,
          (termio_init linux ⟨true, true, true, true⟩ 0 sample_os).2)) ∧
    (termio_init linux ⟨true, true, true, true⟩ 0 sample_os).2.tios.c_lflag &&& linux.ICANON
      = 0 ∧
    (termio_init linux ⟨true, true, true, true⟩ 0 sample_os).2.tios.c_cflag &&& linux.CSIZE
      = linux.CS8 :=
  ⟨⟨by decide, by decide, by decide, by decide⟩,
    (raw_mode_after_open linux ⟨true, true, true, true⟩ 0 sample_os
      ⟨0, [], ⟨1, 0⟩, sample_os.tios⟩
      (termio_init linux ⟨true, true, true, true⟩ 0 sample_os).2
      (by decide) (by decide) (by decide) (by decide)).1,
    (raw_mode_after_open linux ⟨true, true, true, true⟩ 0 sample_os
      ⟨0, [], ⟨1, 0⟩, sample_os.tios⟩
      (termio_init linux ⟨true, true, true, true⟩ 0 sample_os).2
      (by decide) (by decide) (by decide) (by decide)).2.2.2.2.2.2.1⟩

/-- C10. For every descriptor that is not a terminal (`isatty` returns 0),
`termio_init` returns NULL and changes nothing: it issues the `isatty` call
only, writes no configuration, and leaves the configuration, the window size
and the output of the device as they were. -/
theorem init_not_a_terminal (P : Platform) (ienv : InitEnv) (fd : Int) (os : OS)
    (h : ienv.isatty = false) :
    (termio_init P ienv fd os).1 = none ∧
    (termio_init P ienv fd os).2.trace = os.trace ++ [Sys.isatty fd] ∧
    tcsets_calls (termio_init P ienv fd os).2.trace = tcsets_calls os.trace ∧
    (termio_init P ienv fd os).2.tios = os.tios ∧
    (termio_init P ienv fd os).2.winsz = os.winsz ∧
    (termio_init P ienv fd os).2.output = os.output := by
  simp [termio_init, h, OS.log, tcsets_calls, List.filterMap_append]

/-- C10, witness: a descriptor that is not a terminal, on the sample device. -/
theorem init_not_a_terminal_witness :
    (⟨false, true, true, true⟩ : InitEnv).isatty = false ∧
    (termio_init linux ⟨false, true, true, true⟩ 3 sample_os).1 = none ∧
    (termio_init linux ⟨false, true, true, true⟩ 3 sample_os).2.trace
      = sample_os.trace ++ [Sys.isatty 3] ∧
    tcsets_calls (termio_init linux ⟨false, true, true, true⟩ 3 sample_os).2.trace
      = tcsets_calls sample_os.trace ∧
    (termio_init linux ⟨false, true, true, true⟩ 3 sample_os).2.tios = sample_os.tios ∧
    (termio_init linux ⟨false, true, true, true⟩ 3 sample_os).2.winsz = sample_os.winsz ∧
    (termio_init linux ⟨false, true, true, true⟩ 3 sample_os).2.output = sample_os.output :=
  ⟨rfl, init_not_a_terminal linux ⟨false, true, true, true⟩ 3 sample_os rfl⟩

/-- C11, the code at a failing input: `termio_init` on the sample Linux device
leaves a timeout of 1 second in the session; in the query that follows,
answered ESC `[8;24;80t`, the first `select` is given 1 second and each of the
nine later ones the 0.6 second the first one stored into `ctx->tv`, which is
also what the session holds after the call. -/
theorem later_reads_wait_less :
    (termio_init linux ⟨true, true, true, true⟩ 0 sample_linux_os).1
      = some ⟨0, [], ⟨1, 0⟩, sample_linux_os.tios⟩ ∧
    select_timeouts (termio_termsize_setup linux sample_env none
      (reply_events [27, 91, 56, 59, 50, 52, 59, 56, 48, 116])
      ⟨⟨0, [], ⟨1, 0⟩, sample_linux_os.tios⟩,
        (termio_init linux ⟨true, true, true, true⟩ 0 sample_linux_os).2⟩).s.os.trace
      = ⟨1, 0⟩ :: List.replicate 9 ⟨0, 600000⟩ ∧
    (termio_termsize_setup linux sample_env none
      (reply_events [27, 91, 56, 59, 50, 52, 59, 56, 48, 116])
      ⟨⟨0, [], ⟨1, 0⟩, sample_linux_os.tios⟩,
        (termio_init linux ⟨true, true, true, true⟩ 0 sample_linux_os).2⟩).s.ctx.tv
      = ⟨0, 600000⟩ := by
  decide

theorem accumulate_zero (ds : List Nat) :
    accumulate 0 ds = (ds.foldl (fun v ch => v * 10 + (ch - 48)) 0) % 2 ^ 32 := by
  have := accumulate_mod ds 0
  simpa using this

/-- C12. Field accumulation: for every pair of sequences of ASCII digits `ds_r`
and `ds_c` (of any length, leading zeros allowed), on the reply CSI `8;` `ds_r`
`;` `ds_c` `t` (with a complete write and a non-null `sz`) the call succeeds,
the returned `term_rows` is the left fold `v := v * 10 + digit` over `ds_r`
from 0 taken modulo 2^32, and `term_cols` is the same fold over `ds_c` modulo
2^32; the rows do not change when `ds_c` is replaced by other digits, nor the
columns when `ds_r` is. -/
theorem field_accumulation (P : Platform) (env : QueryEnv) (old : termio_termsize_s)
    (s : St) (csi ds_r ds_c : List Nat)
    (hw : env.write_ret = (termsize_query_len : Int)) (hcsi : is_csi csi)
    (hr : ∀ d ∈ ds_r, is_digit d) (hc : ∀ d ∈ ds_c, is_digit d) :
    (termio_termsize_setup P env (some old)
      (reply_events (csi ++ [56, 59] ++ ds_r ++ [59] ++ ds_c ++ [116])) s).ret = 0 ∧
    (termio_termsize_setup P env (some old)
      (reply_events (csi ++ [56, 59] ++ ds_r ++ [59] ++ ds_c ++ [116])) s).sz
      = some ⟨(ds_r.foldl (fun v ch => v * 10 + (ch - 48)) 0) % 2 ^ 32,
          (ds_c.foldl (fun v ch => v * 10 + (ch - 48)) 0) % 2 ^ 32⟩ ∧
    (∀ ds, (∀ d ∈ ds, is_digit d) →
      (termio_termsize_setup P env (some old)
        (reply_events (csi ++ [56, 59] ++ ds_r ++ [59] ++ ds ++ [116])) s).sz.map
          (fun t => t.term_rows)
      = (termio_termsize_setup P env (some old)
        (reply_events (csi ++ [56, 59] ++ ds_r ++ [59] ++ ds_c ++ [116])) s).sz.map
          (fun t => t.term_rows)) ∧
    (∀ ds, (∀ d ∈ ds, is_digit d) →
      (termio_termsize_setup P env (some old)
        (reply_events (csi ++ [56, 59] ++ ds ++ [59] ++ ds_c ++ [116])) s).sz.map
          (fun t => t.term_cols)
      = (termio_termsize_setup P env (some old)
        (reply_events (csi ++ [56, 59] ++ ds_r ++ [59] ++ ds_c ++ [116])) s).sz.map
          (fun t => t.term_cols)) := by
  have hw6 : env.write_ret = 6 := by rw [hw]; decide
  have key : ∀ a b : List Nat, (∀ d ∈ a, is_digit d) → (∀ d ∈ b, is_digit d) →
      (termio_termsize_setup P env (some old)
        (reply_events (csi ++ [56, 59] ++ a ++ [59] ++ b ++ [116])) s).ret = 0 ∧
      (termio_termsize_setup P env (some old)
        (reply_events (csi ++ [56, 59] ++ a ++ [59] ++ b ++ [116])) s).sz
        = some ⟨accumulate 0 a, accumulate 0 b⟩ := by
    intro a b ha hb
    have o := setup_size_reply_obs P env (some old) csi a b [] s hw6 hcsi ha hb
    rw [List.append_nil] at o
    exact ⟨o.1, o.2.1⟩
  refine ⟨(key ds_r ds_c hr hc).1, ?_, ?_, ?_⟩
  · rw [(key ds_r ds_c hr hc).2, accumulate_zero, accumulate_zero]
  · intro ds hds
    rw [(key ds_r ds_c hr hc).2, (key ds_r ds hr hds).2]
    rfl
  · intro ds hds
    rw [(key ds_r ds_c hr hc).2, (key ds ds_c hds hc).2]
    rfl

/-- C12, witness: rows `24`, columns `080`; the digits `2`, `4` accumulate to
24. -/
theorem field_accumulation_witness :
    (sample_env.write_ret = (termsize_query_len : Int) ∧ is_csi [155] ∧
      (∀ d ∈ [50, 52], is_digit d) ∧ (∀ d ∈ [48, 56, 48], is_digit d)) ∧
    (termio_termsize_setup linux sample_env (some ⟨0, 0⟩)
      (reply_events ([155] ++ [56, 59] ++ [50, 52] ++ [59] ++ [48, 56, 48] ++ [116]))
      sample_st).sz
      = some ⟨(([50, 52] : List Nat).foldl (fun v ch => v * 10 + (ch - 48)) 0) % 2 ^ 32,
          (([48, 56, 48] : List Nat).foldl (fun v ch => v * 10 + (ch - 48)) 0) % 2 ^ 32⟩ ∧
    (([50, 52] : List Nat).foldl (fun v ch => v * 10 + (ch - 48)) 0) % 2 ^ 32 = 24 :=
  ⟨⟨by decide, Or.inl rfl, by decide, by decide⟩,
    (field_accumulation linux sample_env ⟨0, 0⟩ sample_st [155] [50, 52] [48, 56, 48]
      (by decide) (Or.inl rfl) (by decide) (by decide)).2.1,
    by decide⟩

/-- C15. A failure to push the size is not a query failure: for every run
(whatever the write returns and the reads do), the return code of
`termio_termsize_setup`, the object it leaves behind `sz` and the events it
leaves unread are the same whether `ioctl(TIOCSWINSZ)` succeeds or fails. -/
theorem push_failure_ignored (P : Platform) (wr : Int) (sz : Option termio_termsize_s)
    (inp : List ReadEvt) (s : St) :
    (termio_termsize_setup P ⟨wr, true⟩ sz inp s).ret
      = (termio_termsize_setup P ⟨wr, false⟩ sz inp s).ret ∧
    (termio_termsize_setup P ⟨wr, true⟩ sz inp s).sz
      = (termio_termsize_setup P ⟨wr, false⟩ sz inp s).sz ∧
    (termio_termsize_setup P ⟨wr, true⟩ sz inp s).inp
      = (termio_termsize_setup P ⟨wr, false⟩ sz inp s).inp := by
  unfold termio_termsize_setup
  simp only
  split_ifs
  · exact ⟨rfl, rfl, rfl⟩
  · split
    · exact ⟨rfl, rfl, rfl⟩
    · split
      · exact ⟨rfl, rfl, rfl⟩
      · split
        · exact ⟨rfl, rfl, rfl⟩
        · split_ifs <;> exact ⟨rfl, rfl, rfl⟩

/-- C16. Empty fields are accepted as zero: with a complete write, on the reply
CSI `8;;t` the call succeeds, leaves rows 0 and columns 0 in the object `sz`
points to, and pushes a 0 x 0 window size; and with digits `ds` in one field
only, the call succeeds and the other field is 0. -/
theorem empty_fields_are_zero (P : Platform) (env : QueryEnv)
    (sz : Option termio_termsize_s) (s : St) (csi : List Nat) (rest : List ReadEvt)
    (hw : env.write_ret = (termsize_query_len : Int)) (hcsi : is_csi csi) :
    ((termio_termsize_setup P env sz (reply_events (csi ++ [56, 59, 59, 116]) ++ rest) s).ret
        = 0 ∧
      (termio_termsize_setup P env sz (reply_events (csi ++ [56, 59, 59, 116]) ++ rest) s).sz
        = sz.map (fun _ => ⟨0, 0⟩) ∧
      pushes
        (termio_termsize_setup P env sz
          (reply_events (csi ++ [56, 59, 59, 116]) ++ rest) s).s.os.trace
        = pushes s.os.trace ++ [⟨0, 0, 0, 0⟩]) ∧
    (∀ ds, (∀ d ∈ ds, is_digit d) →
      (termio_termsize_setup P env sz
        (reply_events (csi ++ [56, 59] ++ [59] ++ ds ++ [116]) ++ rest) s).ret = 0 ∧
      (termio_termsize_setup P env sz
        (reply_events (csi ++ [56, 59] ++ [59] ++ ds ++ [116]) ++ rest) s).sz
        = sz.map (fun _ => ⟨0, (ds.foldl (fun v ch => v * 10 + (ch - 48)) 0) % 2 ^ 32⟩)) ∧
    (∀ ds, (∀ d ∈ ds, is_digit d) →
      (termio_termsize_setup P env sz
        (reply_events (csi ++ [56, 59] ++ ds ++ [59] ++ [116]) ++ rest) s).ret = 0 ∧
      (termio_termsize_setup P env sz
        (reply_events (csi ++ [56, 59] ++ ds ++ [59] ++ [116]) ++ rest) s).sz
        = sz.map (fun _ => ⟨(ds.foldl (fun v ch => v * 10 + (ch - 48)) 0) % 2 ^ 32, 0⟩)) := by
  have hw6 : env.write_ret = 6 := by rw [hw]; decide
  have hnil : ∀ d ∈ ([] : List Nat), is_digit d := by simp
  refine ⟨?_, ?_, ?_⟩
  · have o := setup_size_reply_obs P env sz csi [] [] rest s hw6 hcsi hnil hnil
    have e : size_reply csi [] [] = csi ++ [56, 59, 59, 116] := by simp [size_reply]
    rw [e] at o
    refine ⟨o.1, o.2.1, ?_⟩
    rw [o.2.2.2.2]
    simp [accumulate]
  · intro ds hds
    have o := setup_size_reply_obs P env sz csi [] ds rest s hw6 hcsi hnil hds
    have e : size_reply csi [] ds = csi ++ [56, 59] ++ [59] ++ ds ++ [116] := by
      simp [size_reply]
    rw [e] at o
    refine ⟨o.1, ?_⟩
    rw [o.2.1, accumulate_zero ds]
    rfl
  · intro ds hds
    have o := setup_size_reply_obs P env sz csi ds [] rest s hw6 hcsi hds hnil
    have e : size_reply csi ds [] = csi ++ [56, 59] ++ ds ++ [59] ++ [116] := by
      simp [size_reply]
    rw [e] at o
    refine ⟨o.1, ?_⟩
    rw [o.2.1, accumulate_zero ds]
    rfl

/-- C16, witness: the reply ESC `[8;;t` on the sample session, with `sz`
pointing to a 3 x 5 size. -/
theorem empty_fields_are_zero_witness :
    (sample_env.write_ret = (termsize_query_len : Int) ∧ is_csi [27, 91]) ∧
    (termio_termsize_setup linux sample_env (some ⟨3, 5⟩)
      (reply_events ([27, 91] ++ [56, 59, 59, 116]) ++ []) sample_st).ret = 0 ∧
    (termio_termsize_setup linux sample_env (some ⟨3, 5⟩)
      (reply_events ([27, 91] ++ [56, 59, 59, 116]) ++ []) sample_st).sz
      = (some (⟨3, 5⟩ : termio_termsize_s)).map (fun _ => ⟨0, 0⟩) ∧
    pushes (termio_termsize_setup linux sample_env (some ⟨3, 5⟩)
      (reply_events ([27, 91] ++ [56, 59, 59, 116]) ++ []) sample_st).s.os.trace
      = pushes sample_st.os.trace ++ [⟨0, 0, 0, 0⟩] :=
  ⟨⟨by decide, Or.inr rfl⟩,
    (empty_fields_are_zero linux sample_env (some ⟨3, 5⟩) sample_st [27, 91] []
      (by decide) (Or.inr rfl)).1⟩

theorem testBit_and_bnot32 (x m i : Nat) (hi : i < 32) (hm : m.testBit i = false) :
    (x &&& bnot32 m).testBit i = x.testBit i := by
  rw [Nat.testBit_and, testBit_bnot32, hm]
  simp [hi]

theorem testBit_or_false (a b i : Nat) (ha : a.testBit i = false) (hb : b.testBit i = false) :
    (a ||| b).testBit i = false := by
  rw [Nat.testBit_or, ha, hb]; rfl

/-- C17. The function `termio_init` changes only the raw-mode flag bits: in the
configuration a successful call applies, every bit (of the 32 of a `tcflag_t`)
of `c_iflag` outside IGNBRK|BRKINT|PARMRK|ISTRIP|INLCR|IGNCR|ICRNL|IXON, of
`c_oflag` outside OPOST, of `c_lflag` outside ICANON|ECHO|ISIG|IEXTEN and of
`c_cflag` outside CSIZE|PARENB has its value in the original configuration,
and so have the line discipline, the control characters and the speeds.  The
platform is any on which CS8 is a value of the CSIZE field. -/
theorem init_changes_only_raw_bits (P : Platform) (ienv : InitEnv) (fd : Int) (os : OS)
    (ctx : termio_ctx_s) (os1 : OS)
    (hcs8 : P.CS8 &&& P.CSIZE = P.CS8)
    (hinit : termio_init P ienv fd os = (some ctx, os1)) :
    (∀ i, i < 32 →
      (P.IGNBRK ||| P.BRKINT ||| P.PARMRK ||| P.ISTRIP ||| P.INLCR ||| P.IGNCR ||| P.ICRNL
        ||| P.IXON).testBit i = false →
      os1.tios.c_iflag.testBit i = os.tios.c_iflag.testBit i) ∧
    (∀ i, i < 32 → P.OPOST.testBit i = false →
      os1.tios.c_oflag.testBit i = os.tios.c_oflag.testBit i) ∧
    (∀ i, i < 32 → (P.ICANON ||| P.ECHO ||| P.ISIG ||| P.IEXTEN).testBit i = false →
      os1.tios.c_lflag.testBit i = os.tios.c_lflag.testBit i) ∧
    (∀ i, i < 32 → (P.CSIZE ||| P.PARENB).testBit i = false →
      os1.tios.c_cflag.testBit i = os.tios.c_cflag.testBit i) ∧
    os1.tios.c_line = os.tios.c_line ∧ os1.tios.c_cc = os.tios.c_cc ∧
    os1.tios.c_ispeed = os.tios.c_ispeed ∧ os1.tios.c_ospeed = os.tios.c_ospeed ∧
    tcsets_calls os1.trace = tcsets_calls os.trace ++ [os1.tios] := by
  obtain ⟨_, _, _, _, _, ho⟩ := termio_init_some P ienv fd os ctx os1 hinit
  subst ho
  refine ⟨fun i hi hm => testBit_and_bnot32 _ _ i hi hm,
    fun i hi hm => testBit_and_bnot32 _ _ i hi hm,
    fun i hi hm => testBit_and_bnot32 _ _ i hi hm, ?_, rfl, rfl, rfl, rfl, ?_⟩
  · intro i hi hm
    have hsz : P.CSIZE.testBit i = false := by
      rw [Nat.testBit_or] at hm
      cases h : P.CSIZE.testBit i
      · rfl
      · rw [h] at hm; simp at hm
    have hc : P.CS8.testBit i = false := by
      cases h : P.CS8.testBit i
      · rfl
      · rw [testBit_of_and_eq _ _ hcs8 i h] at hsz; exact Bool.noConfusion hsz
    simp only [raw_termios, Nat.testBit_mod_two_pow, Nat.testBit_or, hc, Bool.or_false,
      testBit_and_bnot32 _ _ i hi hm, hi, decide_True, Bool.true_and]
  · simp [tcsets_calls, List.filterMap_append]

/-- C17, witness: the Linux constants and `termio_init` on the sample device;
bit 7 of `c_cflag` (CREAD) keeps its value. -/
theorem init_changes_only_raw_bits_witness :
    (linux.CS8 &&& linux.CSIZE = linux.CS8 ∧
      termio_init linux ⟨true, true, true, true⟩ 0 sample_os
        = (some ⟨0, [], ⟨1, 0⟩, sample_os.tios⟩,
          (termio_init linux ⟨true, true, true, true⟩ 0 sample_os).2)) ∧
    (7 < 32 → (linux.CSIZE ||| linux.PARENB).testBit 7 = false →
      (termio_init linux ⟨true, true, true, true⟩ 0 sample_os).2.tios.c_cflag.testBit 7
        = sample_os.tios.c_cflag.testBit 7) ∧
    (termio_init linux ⟨true, true, true, true⟩ 0 sample_os).2.tios.c_cc
      = sample_os.tios.c_cc :=
  ⟨⟨by decide, by decide⟩,
    (init_changes_only_raw_bits linux ⟨true, true, true, true⟩ 0 sample_os
      ⟨0, [], ⟨1, 0⟩, sample_os.tios⟩
      (termio_init linux ⟨true, true, true, true⟩ 0 sample_os).2
      (by decide) (by decide)).2.2.2.1 7,
    (init_changes_only_raw_bits linux ⟨true, true, true, true⟩ 0 sample_os
      ⟨0, [], ⟨1, 0⟩, sample_os.tios⟩
      (termio_init linux ⟨true, true, true, true⟩ 0 sample_os).2
      (by decide) (by decide)).2.2.2.2.2.1⟩

/-! ## Lemmas on the order of the calls and on the bytes consumed -/

theorem after_query_trace (env : QueryEnv) (s : St) :
    (s.after_query env).os.trace = s.os.trace ++
      [Sys.write s.ctx.fd termsize_query termsize_query_len, Sys.tcdrain s.ctx.fd] := by
  simp [St.after_query, sys_write, OS.log]

theorem after_write_trace (env : QueryEnv) (s : St) :
    (s.after_write env).os.trace = s.os.trace ++
      [Sys.write s.ctx.fd termsize_query termsize_query_len] := by
  simp [St.after_write, sys_write, OS.log]

theorem sys_tiocswinsz_trace (ok : Bool) (fd : Int) (ws : winsize) (os : OS) :
    (sys_tiocswinsz ok fd ws os).trace = os.trace ++ [Sys.tiocswinsz fd ws] := by
  cases ok <;> simp [sys_tiocswinsz, OS.log]

/-- C13. Reads are never attempted before the query is written and drained:
the calls a run of `termio_termsize_setup` issues are the `write` of the
query, then, when the write reported the full length, `tcdrain`, then the
`select`/`read` calls of the timed reads, then at most the window-size push;
when the write did not report the full length, the call returns -1 and the
`write` is the only call issued, with no event consumed. -/
theorem reads_follow_write_and_drain (P : Platform) (env : QueryEnv)
    (sz : Option termio_termsize_s) (inp : List ReadEvt) (s : St) :
    (env.write_ret ≠ (termsize_query_len : Int) ∧
      (termio_termsize_setup P env sz inp s).ret = -1 ∧
      (termio_termsize_setup P env sz inp s).inp = inp ∧
      (termio_termsize_setup P env sz inp s).s.os.trace = s.os.trace ++
        [Sys.write s.ctx.fd termsize_query termsize_query_len]) ∨
    (env.write_ret = (termsize_query_len : Int) ∧
      ∃ rs tl, (termio_termsize_setup P env sz inp s).s.os.trace = s.os.trace ++
          [Sys.write s.ctx.fd termsize_query termsize_query_len, Sys.tcdrain s.ctx.fd]
          ++ rs ++ tl ∧
        (∀ c ∈ rs, c.is_read = true) ∧
        (tl = [] ∨ ∃ ws, tl = [Sys.tiocswinsz s.ctx.fd ws])) := by
  have hlen : (termsize_query_len : Int) = 6 := by decide
  rw [hlen]
  by_cases h : (termio_termsize_setup P env sz inp s).ret = 0
  · obtain ⟨hw, csi, ds_r, ds_c, rest, _, _, _, _, e⟩ := setup_success P env sz inp s h
    refine Or.inr ⟨hw, ?_⟩
    rw [e]
    have ro := after_reply_readsOnly env csi ds_r ds_c s
    obtain ⟨f, _, _, _, _, t, et, rt⟩ := ro
    refine ⟨t, [Sys.tiocswinsz s.ctx.fd ⟨accumulate 0 ds_r % 2 ^ P.ushort_bits,
      accumulate 0 ds_c % 2 ^ P.ushort_bits, 0, 0⟩], ?_, rt, Or.inr ⟨_, rfl⟩⟩
    simp only [sys_tiocswinsz_trace, et, after_query_trace, f]
    rfl
  · rcases setup_cases P env sz inp s with ⟨h1, _, h3⟩ | ⟨h1, _⟩
    · rcases h3 with ⟨hw, e, ei⟩ | ⟨hw, ro⟩
      · refine Or.inl ⟨hw, h1, ei, ?_⟩
        rw [e, after_write_trace]
      · refine Or.inr ⟨hw, ?_⟩
        obtain ⟨_, _, _, _, _, t, et, rt⟩ := ro
        exact ⟨t, [], by rw [et, after_query_trace, List.append_nil], rt, Or.inl rfl⟩
    · exact absurd h1 h

theorem expect_csi_bad_first (b : Nat) (rest : List ReadEvt) (s : St)
    (h1 : b ≠ 155) (h2 : b ≠ 27) :
    expect_csi (ReadEvt.byte b :: rest) s = (false, rest, s.read_ok) := by
  simp [expect_csi, next_event, timed_readchar_byte, h1, h2]

theorem expect_csi_bad_second (b : Nat) (rest : List ReadEvt) (s : St) (h : b ≠ 91) :
    expect_csi (ReadEvt.byte 27 :: ReadEvt.byte b :: rest) s
      = (false, rest, s.read_ok.read_ok) := by
  simp [expect_csi, next_event, timed_readchar_byte, h]

theorem expect_response_bad_first (b : Nat) (rest : List ReadEvt) (s : St) (h : b ≠ 56) :
    expect response (ReadEvt.byte b :: rest) s = (false, rest, s.read_ok) := by
  simp [expect, response, next_event, timed_readchar_byte, h]

theorem expect_response_bad_second (b : Nat) (rest : List ReadEvt) (s : St) (h : b ≠ 59) :
    expect response (ReadEvt.byte 56 :: ReadEvt.byte b :: rest) s
      = (false, rest, s.read_ok.read_ok) := by
  simp [expect, response, next_event, timed_readchar_byte, h]

theorem size_loop_rows_bad (b : Nat) (rest : List ReadEvt) (s : St) (ts : termio_termsize_s)
    (h1 : b ≠ 59) (h2 : ¬ is_digit b) :
    size_loop (ReadEvt.byte b :: rest) s ParseState.STATE_ROWS ts
      = ⟨none, ParseState.STATE_ROWS, ts, rest, s.read_ok⟩ := by
  have h3 : b < 48 ∨ b > 57 := by
    by_contra h; exact h2 ((is_digit_iff b).mpr h)
  simp [size_loop, timed_readchar_byte, loop_body, h1, h3]

theorem size_loop_cols_bad (b : Nat) (rest : List ReadEvt) (s : St) (ts : termio_termsize_s)
    (h1 : b ≠ 116) (h2 : ¬ is_digit b) :
    size_loop (ReadEvt.byte b :: rest) s ParseState.STATE_COLS ts
      = ⟨some (-1), ParseState.STATE_COLS, ts, rest, s.read_ok⟩ := by
  have h3 : b < 48 ∨ b > 57 := by
    by_contra h; exact h2 ((is_digit_iff b).mpr h)
  simp [size_loop, timed_readchar_byte, loop_body, h1, h3]

/-- The return code and the events left, from the three stages of the parse. -/
theorem setup_stages (P : Platform) (env : QueryEnv) (sz : Option termio_termsize_s)
    (inp : List ReadEvt) (s : St) (hw : env.write_ret = 6) :
    ((expect_csi inp (s.after_query env)).1 = false →
      (termio_termsize_setup P env sz inp s).ret = -1 ∧
      (termio_termsize_setup P env sz inp s).inp = (expect_csi inp (s.after_query env)).2.1) ∧
    ((expect_csi inp (s.after_query env)).1 = true →
      (expect response (expect_csi inp (s.after_query env)).2.1
        (expect_csi inp (s.after_query env)).2.2).1 = false →
      (termio_termsize_setup P env sz inp s).ret = -1 ∧
      (termio_termsize_setup P env sz inp s).inp =
        (expect response (expect_csi inp (s.after_query env)).2.1
          (expect_csi inp (s.after_query env)).2.2).2.1) ∧
    ((expect_csi inp (s.after_query env)).1 = true →
      (expect response (expect_csi inp (s.after_query env)).2.1
        (expect_csi inp (s.after_query env)).2.2).1 = true →
      (termio_termsize_setup P env sz inp s).inp =
        (size_loop (expect response (expect_csi inp (s.after_query env)).2.1
          (expect_csi inp (s.after_query env)).2.2).2.1
          (expect response (expect_csi inp (s.after_query env)).2.1
            (expect_csi inp (s.after_query env)).2.2).2.2
          ParseState.STATE_ROWS ⟨0, 0⟩).inp) := by
  have hlen : (termsize_query_len : Int) = 6 := by decide
  rcases h1 : expect_csi inp (s.after_query env) with ⟨b1, inp2, s2⟩
  rcases h2 : expect response inp2 s2 with ⟨b2, inp3, s3⟩
  simp only [St.after_query, hw] at h1
  refine ⟨?_, ?_, ?_⟩
  · intro hb
    simp only at hb
    subst hb
    unfold termio_termsize_setup
    simp only [hw, hlen, ne_eq, not_true_eq_false, if_false, h1, and_self]
  · intro hb hb2
    simp only [h2] at hb hb2
    subst hb; subst hb2
    unfold termio_termsize_setup
    simp only [hw, hlen, ne_eq, not_true_eq_false, if_false, h1, h2, and_self]
  · intro hb hb2
    simp only [h2] at hb hb2 ⊢
    subst hb; subst hb2
    unfold termio_termsize_setup
    simp only [hw, hlen, ne_eq, not_true_eq_false, if_false, h1, h2]
    cases hr : (size_loop inp3 s3 ParseState.STATE_ROWS ⟨0, 0⟩).ret with
    | some code => rfl
    | none =>
      simp only
      split_ifs <;> rfl

theorem setup_inp_bad_csi_first (P : Platform) (env : QueryEnv)
    (sz : Option termio_termsize_s) (s : St) (b : Nat) (rest : List ReadEvt)
    (hw : env.write_ret = 6) (h1 : b ≠ 155) (h2 : b ≠ 27) :
    (termio_termsize_setup P env sz (reply_events ([] ++ [b]) ++ rest) s).inp = rest := by
  have st := (setup_stages P env sz (reply_events ([] ++ [b]) ++ rest) s hw).1
  have e : reply_events ([] ++ [b]) ++ rest = ReadEvt.byte b :: rest := rfl
  rw [e] at st ⊢
  rw [expect_csi_bad_first b rest _ h1 h2] at st
  exact (st rfl).2

theorem setup_inp_bad_csi_second (P : Platform) (env : QueryEnv)
    (sz : Option termio_termsize_s) (s : St) (b : Nat) (rest : List ReadEvt)
    (hw : env.write_ret = 6) (h : b ≠ 91) :
    (termio_termsize_setup P env sz (reply_events ([27] ++ [b]) ++ rest) s).inp = rest := by
  have st := (setup_stages P env sz (reply_events ([27] ++ [b]) ++ rest) s hw).1
  have e : reply_events ([27] ++ [b]) ++ rest
      = ReadEvt.byte 27 :: ReadEvt.byte b :: rest := rfl
  rw [e] at st ⊢
  rw [expect_csi_bad_second b rest _ h] at st
  exact (st rfl).2

theorem setup_inp_bad_eight (P : Platform) (env : QueryEnv)
    (sz : Option termio_termsize_s) (s : St) (csi : List Nat) (b : Nat)
    (rest : List ReadEvt) (hw : env.write_ret = 6) (hcsi : is_csi csi) (h : b ≠ 56) :
    (termio_termsize_setup P env sz (reply_events (csi ++ [b]) ++ rest) s).inp = rest := by
  have st := (setup_stages P env sz (reply_events (csi ++ [b]) ++ rest) s hw).2.1
  have e : reply_events (csi ++ [b]) ++ rest
      = reply_events csi ++ (ReadEvt.byte b :: rest) := by simp [reply_events]
  rw [e] at st ⊢
  rw [expect_csi_match csi hcsi] at st
  simp only [expect_response_bad_first b rest _ h, true_implies] at st
  exact st.2

theorem setup_inp_bad_semicolon (P : Platform) (env : QueryEnv)
    (sz : Option termio_termsize_s) (s : St) (csi : List Nat) (b : Nat)
    (rest : List ReadEvt) (hw : env.write_ret = 6) (hcsi : is_csi csi) (h : b ≠ 59) :
    (termio_termsize_setup P env sz (reply_events (csi ++ [56] ++ [b]) ++ rest) s).inp
      = rest := by
  have st := (setup_stages P env sz (reply_events (csi ++ [56] ++ [b]) ++ rest) s hw).2.1
  have e : reply_events (csi ++ [56] ++ [b]) ++ rest
      = reply_events csi ++ (ReadEvt.byte 56 :: ReadEvt.byte b :: rest) := by
    simp [reply_events]
  rw [e] at st ⊢
  rw [expect_csi_match csi hcsi] at st
  simp only [expect_response_bad_second b rest _ h, true_implies] at st
  exact st.2

theorem setup_inp_bad_rows (P : Platform) (env : QueryEnv)
    (sz : Option termio_termsize_s) (s : St) (csi ds : List Nat) (b : Nat)
    (rest : List ReadEvt) (hw : env.write_ret = 6) (hcsi : is_csi csi)
    (hds : ∀ d ∈ ds, is_digit d) (h1 : b ≠ 59) (h2 : ¬ is_digit b) :
    (termio_termsize_setup P env sz
      (reply_events (csi ++ [56, 59] ++ ds ++ [b]) ++ rest) s).inp = rest := by
  have st := (setup_stages P env sz
    (reply_events (csi ++ [56, 59] ++ ds ++ [b]) ++ rest) s hw).2.2
  have e : reply_events (csi ++ [56, 59] ++ ds ++ [b]) ++ rest
      = reply_events csi ++ (reply_events [56, 59] ++ (reply_events ds ++
          (ReadEvt.byte b :: rest))) := by
    simp [reply_events]
  rw [e] at st ⊢
  rw [expect_csi_match csi hcsi] at st
  simp only [expect_response_match, size_loop_rows_digits ds hds,
    size_loop_rows_bad b rest _ _ h1 h2, true_implies] at st
  exact st

theorem setup_inp_bad_cols (P : Platform) (env : QueryEnv)
    (sz : Option termio_termsize_s) (s : St) (csi ds_r ds : List Nat) (b : Nat)
    (rest : List ReadEvt) (hw : env.write_ret = 6) (hcsi : is_csi csi)
    (hdr : ∀ d ∈ ds_r, is_digit d) (hds : ∀ d ∈ ds, is_digit d)
    (h1 : b ≠ 116) (h2 : ¬ is_digit b) :
    (termio_termsize_setup P env sz
      (reply_events (csi ++ [56, 59] ++ ds_r ++ [59] ++ ds ++ [b]) ++ rest) s).inp
      = rest := by
  have st := (setup_stages P env sz
    (reply_events (csi ++ [56, 59] ++ ds_r ++ [59] ++ ds ++ [b]) ++ rest) s hw).2.2
  have e : reply_events (csi ++ [56, 59] ++ ds_r ++ [59] ++ ds ++ [b]) ++ rest
      = reply_events csi ++ (reply_events [56, 59] ++ (reply_events ds_r ++
          (ReadEvt.byte 59 :: (reply_events ds ++ (ReadEvt.byte b :: rest))))) := by
    simp [reply_events]
  rw [e] at st ⊢
  rw [expect_csi_match csi hcsi] at st
  simp only [expect_response_match, size_loop_rows_digits ds_r hdr, size_loop_rows_sep,
    size_loop_cols_digits ds hds, size_loop_cols_bad b rest _ _ h1 h2, true_implies] at st
  exact st

theorem digits_append {a b : List Nat} (ha : ∀ d ∈ a, is_digit d) (hb : ∀ d ∈ b, is_digit d) :
    ∀ d ∈ a ++ b, is_digit d := by
  intro d hd
  rcases List.mem_append.mp hd with h | h
  · exact ha d h
  · exact hb d h

theorem digits_nil : ∀ d ∈ ([] : List Nat), is_digit d := by
  intro d hd
  exact absurd hd (List.not_mem_nil d)

theorem digits_single {b : Nat} (hb : is_digit b) : ∀ d ∈ [b], is_digit d := by
  intro d hd
  rw [List.mem_singleton] at hd
  rw [hd]
  exact hb

/-- The mismatch in the columns field. -/
theorem setup_inp_mismatch_cols (P : Platform) (env : QueryEnv)
    (sz : Option termio_termsize_s) (s : St) (csi r c q suf : List Nat) (b : Nat)
    (rest : List ReadEvt) (hw : env.write_ret = 6) (hcsi : is_csi csi)
    (hr : ∀ d ∈ r, is_digit d) (hc : ∀ d ∈ c, is_digit d)
    (hq : q ++ suf = c ++ [116]) (hsuf : suf ≠ [])
    (hb : ¬ viable (csi ++ [56, 59] ++ r ++ [59] ++ q ++ [b])) :
    (termio_termsize_setup P env sz
      (reply_events (csi ++ [56, 59] ++ r ++ [59] ++ q ++ [b]) ++ rest) s).inp = rest := by
  have hqd : ∀ d ∈ q, is_digit d := by
    rcases List.append_eq_append_iff.mp hq with ⟨a, ha, _⟩ | ⟨t, ht, hs⟩
    · intro d hd
      exact hc d (by rw [ha]; exact List.mem_append_left _ hd)
    · cases t with
      | nil =>
        intro d hd
        rw [ht, List.append_nil] at hd
        exact hc d hd
      | cons x t =>
        simp only [List.cons_append, List.cons.injEq, List.nil_eq, List.append_eq_nil] at hs
        exact absurd hs.2.2 hsuf
  apply setup_inp_bad_cols P env sz s csi r q b rest hw hcsi hr hqd
  · intro h116
    apply hb
    refine ⟨csi, r, q, [], hcsi, hr, hqd, ?_⟩
    rw [h116]
    simp [size_reply]
  · intro hd
    apply hb
    refine ⟨csi, r, q ++ [b], [116], hcsi, hr, digits_append hqd (digits_single hd), ?_⟩
    simp [size_reply]

/-- The mismatch in either field. -/
theorem setup_inp_mismatch_fields (P : Platform) (env : QueryEnv)
    (sz : Option termio_termsize_s) (s : St) (csi r c p suf : List Nat) (b : Nat)
    (rest : List ReadEvt) (hw : env.write_ret = 6) (hcsi : is_csi csi)
    (hr : ∀ d ∈ r, is_digit d) (hc : ∀ d ∈ c, is_digit d)
    (hp : p ++ suf = r ++ 59 :: (c ++ [116])) (hsuf : suf ≠ [])
    (hb : ¬ viable (csi ++ [56, 59] ++ p ++ [b])) :
    (termio_termsize_setup P env sz
      (reply_events (csi ++ [56, 59] ++ p ++ [b]) ++ rest) s).inp = rest := by
  have rows : (∀ d ∈ p, is_digit d) →
      (termio_termsize_setup P env sz
        (reply_events (csi ++ [56, 59] ++ p ++ [b]) ++ rest) s).inp = rest := by
    intro hpd
    apply setup_inp_bad_rows P env sz s csi p b rest hw hcsi hpd
    · intro h59
      apply hb
      refine ⟨csi, p, [], [116], hcsi, hpd, digits_nil, ?_⟩
      rw [h59]
      simp [size_reply]
    · intro hd
      apply hb
      refine ⟨csi, p ++ [b], [], [59, 116], hcsi, digits_append hpd (digits_single hd),
        digits_nil, ?_⟩
      simp [size_reply]
  rcases List.append_eq_append_iff.mp hp with ⟨a, ha, _⟩ | ⟨t, ht, hs⟩
  · exact rows (fun d hd => hr d (by rw [ha]; exact List.mem_append_left _ hd))
  · cases t with
    | nil =>
      rw [List.append_nil] at ht
      rw [ht]
      rw [ht] at rows
      exact rows hr
    | cons x q =>
      simp only [List.cons_append, List.cons.injEq] at hs
      obtain ⟨hx, hq⟩ := hs
      subst hx
      subst ht
      have e : csi ++ [56, 59] ++ (r ++ 59 :: q) ++ [b]
          = csi ++ [56, 59] ++ r ++ [59] ++ q ++ [b] := by simp
      rw [e] at hb ⊢
      exact setup_inp_mismatch_cols P env sz s csi r c q suf b rest hw hcsi hr hc hq.symm
        hsuf hb

/-- After a proper beginning `pre` of a reply of the expected format, a byte `b`
that no such reply continues `pre` with is the last event consumed. -/
theorem setup_inp_mismatch (P : Platform) (env : QueryEnv)
    (sz : Option termio_termsize_s) (s : St) (csi r c pre suf : List Nat) (b : Nat)
    (rest : List ReadEvt) (hw : env.write_ret = 6) (hcsi : is_csi csi)
    (hr : ∀ d ∈ r, is_digit d) (hc : ∀ d ∈ c, is_digit d)
    (hpre : pre ++ suf = size_reply csi r c) (hsuf : suf ≠ [])
    (hb : ¬ viable (pre ++ [b])) :
    (termio_termsize_setup P env sz (reply_events (pre ++ [b]) ++ rest) s).inp = rest := by
  have first : pre = [] →
      (termio_termsize_setup P env sz (reply_events (pre ++ [b]) ++ rest) s).inp = rest := by
    intro h
    subst h
    apply setup_inp_bad_csi_first P env sz s b rest hw
    · intro h155
      apply hb
      refine ⟨[155], [], [], [56, 59, 59, 116], Or.inl rfl, digits_nil, digits_nil, ?_⟩
      rw [h155]
      rfl
    · intro h27
      apply hb
      refine ⟨[27, 91], [], [], [91, 56, 59, 59, 116], Or.inr rfl, digits_nil, digits_nil, ?_⟩
      rw [h27]
      rfl
  have eight : ∀ k, is_csi k → pre = k →
      (termio_termsize_setup P env sz (reply_events (pre ++ [b]) ++ rest) s).inp = rest := by
    intro k hk h
    subst h
    apply setup_inp_bad_eight P env sz s pre b rest hw hk
    intro h56
    apply hb
    refine ⟨pre, [], [], [59, 59, 116], hk, digits_nil, digits_nil, ?_⟩
    rw [h56]
    simp [size_reply]
  have semi : ∀ k, is_csi k → pre = k ++ [56] →
      (termio_termsize_setup P env sz (reply_events (pre ++ [b]) ++ rest) s).inp = rest := by
    intro k hk h
    subst h
    apply setup_inp_bad_semicolon P env sz s k b rest hw hk
    intro h59
    apply hb
    refine ⟨k, [], [], [59, 116], hk, digits_nil, digits_nil, ?_⟩
    rw [h59]
    simp [size_reply]
  have fields : ∀ k p, is_csi k → pre = k ++ [56, 59] ++ p →
      p ++ suf = r ++ 59 :: (c ++ [116]) →
      (termio_termsize_setup P env sz (reply_events (pre ++ [b]) ++ rest) s).inp = rest := by
    intro k p hk h hp
    subst h
    exact setup_inp_mismatch_fields P env sz s k r c p suf b rest hw hk hr hc hp hsuf hb
  rcases hcsi with rfl | rfl
  · cases pre with
    | nil => exact first rfl
    | cons x p1 =>
      simp only [size_reply, List.cons_append, List.nil_append, List.cons.injEq,
        List.append_assoc] at hpre
      obtain ⟨hx, h1⟩ := hpre
      subst hx
      cases p1 with
      | nil => exact eight [155] (Or.inl rfl) rfl
      | cons y p2 =>
        simp only [List.cons_append, List.cons.injEq] at h1
        obtain ⟨hy, h2⟩ := h1
        subst hy
        cases p2 with
        | nil => exact semi [155] (Or.inl rfl) rfl
        | cons z p3 =>
          simp only [List.cons_append, List.cons.injEq] at h2
          obtain ⟨hz, h3⟩ := h2
          subst hz
          exact fields [155] p3 (Or.inl rfl) rfl h3
  · cases pre with
    | nil => exact first rfl
    | cons w p0 =>
      simp only [size_reply, List.cons_append, List.nil_append, List.cons.injEq,
        List.append_assoc] at hpre
      obtain ⟨hw0, h0⟩ := hpre
      subst hw0
      cases p0 with
      | nil =>
        apply setup_inp_bad_csi_second P env sz s b rest hw
        intro h91
        apply hb
        refine ⟨[27, 91], [], [], [56, 59, 59, 116], Or.inr rfl, digits_nil, digits_nil, ?_⟩
        rw [h91]
        rfl
      | cons x p1 =>
        simp only [List.cons_append, List.cons.injEq] at h0
        obtain ⟨hx, h1⟩ := h0
        subst hx
        cases p1 with
        | nil => exact eight [27, 91] (Or.inr rfl) rfl
        | cons y p2 =>
          simp only [List.cons_append, List.cons.injEq] at h1
          obtain ⟨hy, h2⟩ := h1
          subst hy
          cases p2 with
          | nil => exact semi [27, 91] (Or.inr rfl) rfl
          | cons z p3 =>
            simp only [List.cons_append, List.cons.injEq] at h2
            obtain ⟨hz, h3⟩ := h2
            subst hz
            exact fields [27, 91] p3 (Or.inr rfl) rfl h3

/-- C14. The parser consumes exactly the bytes it needs (the write being
complete).  On a reply of the expected format followed by any events `rest`,
the call succeeds and leaves exactly `rest` unread: it has read to the
terminating `t` and no further.  On a proper beginning `pre` of such a reply
followed by an offending byte `b` (one that no reply of the expected format
continues `pre` with) and then `rest`, the call returns -1 and leaves exactly
`rest` unread: it has read to the offending byte and no further. -/
theorem consumes_exactly (P : Platform) (env : QueryEnv) (sz : Option termio_termsize_s)
    (s : St) (csi ds_r ds_c pre suf : List Nat) (b : Nat) (rest : List ReadEvt)
    (hw : env.write_ret = (termsize_query_len : Int)) (hcsi : is_csi csi)
    (hr : ∀ d ∈ ds_r, is_digit d) (hc : ∀ d ∈ ds_c, is_digit d)
    (hpre : pre ++ suf = csi ++ [56, 59] ++ ds_r ++ [59] ++ ds_c ++ [116])
    (hsuf : suf ≠ []) (hb : ¬ viable (pre ++ [b])) :
    ((termio_termsize_setup P env sz
        (reply_events (csi ++ [56, 59] ++ ds_r ++ [59] ++ ds_c ++ [116]) ++ rest) s).ret = 0 ∧
      (termio_termsize_setup P env sz
        (reply_events (csi ++ [56, 59] ++ ds_r ++ [59] ++ ds_c ++ [116]) ++ rest) s).inp
        = rest) ∧
    ((termio_termsize_setup P env sz (reply_events (pre ++ [b]) ++ rest) s).ret = -1 ∧
      (termio_termsize_setup P env sz (reply_events (pre ++ [b]) ++ rest) s).inp = rest) := by
  have hw6 : env.write_ret = 6 := by rw [hw]; decide
  have o := setup_size_reply_obs P env sz csi ds_r ds_c rest s hw6 hcsi hr hc
  have hi := setup_inp_mismatch P env sz s csi ds_r ds_c pre suf b rest hw6 hcsi hr hc
    hpre hsuf hb
  refine ⟨⟨o.1, o.2.2.1⟩, ?_, hi⟩
  have hne : (termio_termsize_setup P env sz (reply_events (pre ++ [b]) ++ rest) s).ret
      ≠ 0 := by
    intro h0
    obtain ⟨_, csi1, r1, c1, x, hc1, hr1, hcl1, e, ev⟩ := setup_success P env sz _ s h0
    have hx : x = rest := by
      have := congrArg SetupOut.inp ev
      rw [hi] at this
      exact this.symm
    rw [hx] at e
    have e2 := List.append_cancel_right e
    have e3 : pre ++ [b] = size_reply csi1 r1 c1 :=
      List.map_injective_iff.mpr (fun _ _ h => ReadEvt.byte.inj h) e2
    exact hb ⟨csi1, r1, c1, [], hc1, hr1, hcl1, by rw [List.append_nil]; exact e3⟩
  exact (setup_failure P env sz _ s hne).1

/-- C14, witness: in ESC `[8;24x` followed by `80t`, the byte `x` is the
offending one and `80t` is left unread. -/
theorem consumes_exactly_witness :
    (sample_env.write_ret = (termsize_query_len : Int) ∧ is_csi [27, 91] ∧
      (∀ d ∈ [50, 52], is_digit d) ∧ (∀ d ∈ [56, 48], is_digit d) ∧
      [27, 91, 56, 59, 50, 52] ++ [59, 56, 48, 116]
        = [27, 91] ++ [56, 59] ++ [50, 52] ++ [59] ++ [56, 48] ++ [116] ∧
      [59, 56, 48, 116] ≠ ([] : List Nat) ∧
      ¬ viable ([27, 91, 56, 59, 50, 52] ++ [120])) ∧
    (termio_termsize_setup linux sample_env none
      (reply_events ([27, 91, 56, 59, 50, 52] ++ [120]) ++ reply_events [56, 48, 116])
      sample_st).ret = -1 ∧
    (termio_termsize_setup linux sample_env none
      (reply_events ([27, 91, 56, 59, 50, 52] ++ [120]) ++ reply_events [56, 48, 116])
      sample_st).inp = reply_events [56, 48, 116] := by
  have hv : ¬ viable ([27, 91, 56, 59, 50, 52] ++ [120]) := by
    rintro ⟨k, r, c, suf, hk, hr, hc, e⟩
    have h := (setup_size_reply_obs linux sample_env none k r c [] sample_st (by decide)
      hk hr hc).1
    rw [← e] at h
    simp [termio_termsize_setup, sample_env, termsize_query_len, termsize_query,
      ANSI_CSI_7BIT, reply_events, expect_csi, next_event, timed_readchar, expect, response,
      size_loop, loop_body] at h
  exact ⟨⟨by decide, Or.inr rfl, by decide, by decide, by decide, by decide, hv⟩,
    (consumes_exactly linux sample_env none sample_st [27, 91] [50, 52] [56, 48]
      [27, 91, 56, 59, 50, 52] [59, 56, 48, 116] 120 (reply_events [56, 48, 116])
      (by decide) (Or.inr rfl) (by decide) (by decide) (by decide) (by decide) hv).2⟩

end Termutils
